import Mathlib

set_option maxHeartbeats 1000000

/-!
Verification development for the ToRT kernel (os.c / os.h).

The kernel state is embedded shallowly: the task table, the timer table,
the current-task index, the occupied-resources bitmap, and a flag recording
whether the forced-reschedule signal (Os_ForceSchedule, which winds the
scheduling timer) has been raised.  Event masks, resource masks and
priorities are `uint8_t` in the source and are modelled as `Nat`, with
8-bit complement (`~` on `uint8_t`) written as `255 ^^^ m`.
-/

namespace Tort

/-- Task states, mirroring `enum { TASK_STATE_READY, TASK_STATE_RUNNING,
TASK_STATE_WAITING }` in os.h. -/
inductive TaskState where
  | ready
  | running
  | waiting
  deriving DecidableEq, Repr

/-- The task descriptor of os.h (the `Stack` pointer, which the kernel logic
never inspects, is omitted). -/
structure TaskDescriptor where
  state : TaskState
  events : Nat
  waitForEvents : Nat
  requiredResources : Nat
  priority : Nat
  deriving DecidableEq, Repr

/-- The timer descriptor of os.h. -/
structure TimerDescriptor where
  value : Nat
  taskID : Nat
  event : Nat
  deriving DecidableEq, Repr

/-- The kernel's global state: `Tasks`, `CurrentTaskIndex`,
`ResourcesOccupied`, `Timers`, and whether `Os_ForceSchedule` was raised. -/
structure Kernel where
  tasks : List TaskDescriptor
  currentTaskIndex : Nat
  resourcesOccupied : Nat
  timers : List TimerDescriptor
  forceSchedule : Bool
  deriving DecidableEq, Repr

/-- Fallback descriptor for out-of-range table reads (the C source would have
undefined behaviour there; theorems carry in-range hypotheses). -/
def dfltTask : TaskDescriptor :=
  ⟨TaskState.ready, 0, 0, 0, 0⟩

/-- Fallback timer descriptor for out-of-range reads. -/
def dfltTimer : TimerDescriptor :=
  ⟨0, 0, 0⟩

/-- `Tasks[i]` -/
def getTask (k : Kernel) (i : Nat) : TaskDescriptor :=
  k.tasks.getD i dfltTask

/-- `Timers[i]` -/
def getTimer (k : Kernel) (i : Nat) : TimerDescriptor :=
  k.timers.getD i dfltTimer

/-- In-place update of the `n`-th entry of a table. -/
def modifyNth {α : Type} (f : α → α) : Nat → List α → List α
  | _, [] => []
  | 0, a :: as => f a :: as
  | n + 1, a :: as => a :: modifyNth f n as

/-- 8-bit complement `~m` on `uint8_t` values. -/
def compl8 (m : Nat) : Nat := 255 ^^^ m

/-- One iteration of the selection loop of `Os_Scheduler`: the accumulator is
`(HighestPriority, NextTaskIndex)`, and index `i` is recorded when
`Tasks[i].State == TASK_STATE_READY`, `Tasks[i].RequiredResources &
ResourcesOccupied == 0` and `Tasks[i].Priority > HighestPriority`. -/
def schedFold (ts : List TaskDescriptor) (occ : Nat) (acc : Nat × Nat) (i : Nat) : Nat × Nat :=
  let t := ts.getD i dfltTask
  if t.state = TaskState.ready ∧ t.requiredResources &&& occ = 0 then
    if acc.1 < t.priority then (t.priority, i) else acc
  else acc

/-- The whole selection loop of `Os_Scheduler`, started from
`HighestPriority = 0`, `NextTaskIndex = 0`. -/
def schedSelect (ts : List TaskDescriptor) (occ : Nat) : Nat × Nat :=
  (List.range ts.length).foldl (schedFold ts occ) (0, 0)

/-- `Os_Scheduler` of os.c: select the next task, then dispatch it when the
current task left the RUNNING state, or preempt when a strictly
higher-priority task was selected. -/
def Os_Scheduler (k : Kernel) : Kernel :=
  let next := (schedSelect k.tasks k.resourcesOccupied).2
  let curr := getTask k k.currentTaskIndex
  if curr.state = TaskState.ready ∨ curr.state = TaskState.waiting then
    { k with
        tasks := modifyNth (fun t => { t with state := TaskState.running }) next k.tasks
        currentTaskIndex := next }
  else if curr.state = TaskState.running then
    if curr.priority < (getTask k next).priority then
      { k with
          tasks := modifyNth (fun t => { t with state := TaskState.running }) next
            (modifyNth (fun t => { t with state := TaskState.ready }) k.currentTaskIndex k.tasks)
          currentTaskIndex := next }
    else k
  else k

/-- `Os_SetEvent` of os.c: OR the mask into the target's events; if the
target's wait mask now intersects its events, make it READY, and raise the
forced-reschedule signal when the target's priority exceeds the current
task's priority. -/
def Os_SetEvent (taskID mask : Nat) (k : Kernel) : Kernel :=
  let k1 := { k with
    tasks := modifyNth (fun t => { t with events := t.events ||| mask }) taskID k.tasks }
  let t := getTask k1 taskID
  if t.waitForEvents &&& t.events ≠ 0 then
    let k2 := { k1 with
      tasks := modifyNth (fun u => { u with state := TaskState.ready }) taskID k1.tasks }
    if (getTask k2 k2.currentTaskIndex).priority < t.priority then
      { k2 with forceSchedule := true }
    else k2
  else k1

/-- `Os_ClearEvents` of os.c: AND-NOT the mask into the current task's
events. -/
def Os_ClearEvents (mask : Nat) (k : Kernel) : Kernel :=
  { k with
      tasks := modifyNth (fun t => { t with events := t.events &&& compl8 mask })
        k.currentTaskIndex k.tasks }

/-- `Os_GetEvents` of os.c: read the current task's events. -/
def Os_GetEvents (k : Kernel) : Nat :=
  (getTask k k.currentTaskIndex).events

/-- `Os_WaitEvents` of os.c: OR the mask into the current task's wait mask;
if none of the awaited events is set, move the current task to WAITING and
raise the forced-reschedule signal (the subsequent spin poll only re-reads
state and is not part of the state transition). -/
def Os_WaitEvents (mask : Nat) (k : Kernel) : Kernel :=
  let k1 := { k with
    tasks := modifyNth (fun t => { t with waitForEvents := t.waitForEvents ||| mask })
      k.currentTaskIndex k.tasks }
  if (getTask k1 k1.currentTaskIndex).events &&& mask = 0 then
    { k1 with
        tasks := modifyNth (fun t => { t with state := TaskState.waiting })
          k1.currentTaskIndex k1.tasks
        forceSchedule := true }
  else k1

/-- `Os_GetResources` of os.c: occupy the resources. -/
def Os_GetResources (mask : Nat) (k : Kernel) : Kernel :=
  { k with resourcesOccupied := k.resourcesOccupied ||| mask }

/-- `Os_ReleaseResources` of os.c: release the resources and force a
reschedule. -/
def Os_ReleaseResources (mask : Nat) (k : Kernel) : Kernel :=
  { k with
      resourcesOccupied := k.resourcesOccupied &&& compl8 mask
      forceSchedule := true }

/-- `Os_SetTimer` of os.c: write the tick count of a timer. -/
def Os_SetTimer (timerID value : Nat) (k : Kernel) : Kernel :=
  { k with timers := modifyNth (fun tm => { tm with value := value }) timerID k.timers }

/-- `Os_TickTimer` of os.c: if the timer is active, decrement it, and on
reaching zero post the configured event to the owning task. -/
def Os_TickTimer (timerID : Nat) (k : Kernel) : Kernel :=
  let tm := getTimer k timerID
  if 0 < tm.value then
    let k1 := { k with
      timers := modifyNth (fun u => { u with value := u.value - 1 }) timerID k.timers }
    if (getTimer k1 timerID).value = 0 then
      Os_SetEvent tm.taskID tm.event k1
    else k1
  else k

/-- The kernel operations a task or ISR can invoke (reads such as
`Os_GetEvents` leave the state unchanged). -/
inductive Op where
  | schedule
  | setEvent (taskID mask : Nat)
  | clearEvents (mask : Nat)
  | getEvents
  | waitEvents (mask : Nat)
  | getResources (mask : Nat)
  | releaseResources (mask : Nat)
  | setTimer (timerID value : Nat)
  | tickTimer (timerID : Nat)
  deriving DecidableEq, Repr

/-- The state transition of one kernel operation. -/
def applyOp : Op → Kernel → Kernel
  | Op.schedule, k => Os_Scheduler k
  | Op.setEvent t m, k => Os_SetEvent t m k
  | Op.clearEvents m, k => Os_ClearEvents m k
  | Op.getEvents, k => k
  | Op.waitEvents m, k => Os_WaitEvents m k
  | Op.getResources m, k => Os_GetResources m k
  | Op.releaseResources m, k => Os_ReleaseResources m k
  | Op.setTimer t v, k => Os_SetTimer t v k
  | Op.tickTimer t, k => Os_TickTimer t k

/-- Run a sequence of kernel operations. -/
def run (ops : List Op) (k : Kernel) : Kernel :=
  ops.foldl (fun s op => applyOp op s) k

/-- The initial configuration after `Os_StartOS`: every task READY with no
events pending and an empty wait mask, `CurrentTaskIndex = 0`, no resource
occupied, forced-reschedule signal not raised. -/
def InitialConfig (k : Kernel) : Prop :=
  (∀ t ∈ k.tasks, t.state = TaskState.ready ∧ t.events = 0 ∧ t.waitForEvents = 0) ∧
  k.currentTaskIndex = 0 ∧ k.resourcesOccupied = 0 ∧ k.forceSchedule = false

instance instDecInitialConfig (k : Kernel) : Decidable (InitialConfig k) := by
  unfold InitialConfig
  infer_instance

/-- A READY task with priority `p`, no pending events, empty wait mask and
no required resources. -/
def taskW (p : Nat) : TaskDescriptor :=
  ⟨TaskState.ready, 0, 0, 0, p⟩

/-- A four-task configuration mirroring the demo application: idle task at
index 0 with priority 0, three application tasks with priorities 1, 2, 3. -/
def kW : Kernel :=
  { tasks := [taskW 0, taskW 1, taskW 2, taskW 3]
    currentTaskIndex := 0
    resourcesOccupied := 0
    timers := [⟨0, 1, 1⟩]
    forceSchedule := false }

/-- A two-task configuration: idle task (priority 0) and one application
task (priority 1). -/
def kTwo : Kernel :=
  { tasks := [taskW 0, taskW 1]
    currentTaskIndex := 0
    resourcesOccupied := 0
    timers := [⟨0, 1, 1⟩]
    forceSchedule := false }

/-- A state in which the current task (index 0) is RUNNING and a READY task
of priority 5 with an empty wait mask sits at index 1. -/
def kHighPrio : Kernel :=
  { tasks := [⟨TaskState.running, 0, 0, 0, 0⟩, ⟨TaskState.ready, 0, 0, 0, 5⟩]
    currentTaskIndex := 0
    resourcesOccupied := 0
    timers := []
    forceSchedule := false }

/-- A state in which resource bit 1 is already occupied. -/
def kRes : Kernel :=
  { tasks := [taskW 0]
    currentTaskIndex := 0
    resourcesOccupied := 1
    timers := []
    forceSchedule := false }

/-- A table with two READY tasks tied at the maximal priority 2 (indices 1
and 2). -/
def kTieTop : Kernel :=
  { tasks := [taskW 0, ⟨TaskState.ready, 0, 0, 0, 2⟩, ⟨TaskState.ready, 0, 0, 0, 2⟩]
    currentTaskIndex := 0
    resourcesOccupied := 0
    timers := []
    forceSchedule := false }

/-- A table whose only Ready-and-eligible tasks (indices 1 and 2) are tied
at priority 0, the maximal candidate priority; the WAITING task 0 is not a
candidate. -/
def kTieZero : Kernel :=
  { tasks := [⟨TaskState.waiting, 0, 1, 0, 0⟩, ⟨TaskState.ready, 0, 0, 0, 0⟩,
      ⟨TaskState.ready, 0, 0, 0, 0⟩]
    currentTaskIndex := 0
    resourcesOccupied := 0
    timers := []
    forceSchedule := false }

/-- A state in which the RUNNING current task 1 has already accumulated
wait-mask bit 1 (it waited once and the bit was never cleared). -/
def kWaited : Kernel :=
  { tasks := [taskW 0, ⟨TaskState.running, 0, 1, 0, 1⟩]
    currentTaskIndex := 1
    resourcesOccupied := 0
    timers := []
    forceSchedule := false }

/-- A table with two READY tasks tied at priority 1 (indices 1 and 2) and a
READY task of priority 5 at index 3. -/
def kTie : Kernel :=
  { tasks := [taskW 0, taskW 1, ⟨TaskState.ready, 0, 0, 0, 1⟩, taskW 5]
    currentTaskIndex := 0
    resourcesOccupied := 0
    timers := []
    forceSchedule := false }

/-- Eligibility test of the scheduler's selection loop: READY and no
required resource currently occupied. -/
def IsCand (ts : List TaskDescriptor) (occ : Nat) (i : Nat) : Prop :=
  (ts.getD i dfltTask).state = TaskState.ready ∧
  (ts.getD i dfltTask).requiredResources &&& occ = 0

instance instDecIsCand (ts : List TaskDescriptor) (occ i : Nat) : Decidable (IsCand ts occ i) :=
  inferInstanceAs (Decidable (_ ∧ _))

/-- Invariant of the scheduler's selection loop after scanning all indices
below `n`: either no candidate with positive priority was seen and the
accumulator still is `(0, 0)`, or the accumulator holds the maximal
candidate priority seen and the least candidate index attaining it. -/
def SelInv (ts : List TaskDescriptor) (occ : Nat) (n : Nat) (acc : Nat × Nat) : Prop :=
  (acc.1 = 0 → acc = (0, 0) ∧ ∀ i, i < n → IsCand ts occ i → (ts.getD i dfltTask).priority = 0) ∧
  (0 < acc.1 →
    acc.2 < n ∧ IsCand ts occ acc.2 ∧ (ts.getD acc.2 dfltTask).priority = acc.1 ∧
    (∀ i, i < n → IsCand ts occ i → (ts.getD i dfltTask).priority ≤ acc.1) ∧
    (∀ i, i < n → IsCand ts occ i → (ts.getD i dfltTask).priority = acc.1 → acc.2 ≤ i))

/-- Any task in state RUNNING is the current task. -/
def RunningIsCurrent (k : Kernel) : Prop :=
  ∀ i, i < k.tasks.length → (getTask k i).state = TaskState.running →
    i = k.currentTaskIndex

/-- At most one descriptor of the task table is in state RUNNING. -/
def AtMostOneRunning (k : Kernel) : Prop :=
  ∀ i, i < k.tasks.length → ∀ j, j < k.tasks.length →
    (getTask k i).state = TaskState.running →
    (getTask k j).state = TaskState.running → i = j

instance instDecAtMostOneRunning (k : Kernel) : Decidable (AtMostOneRunning k) := by
  unfold AtMostOneRunning
  infer_instance


/-! ### Helper lemmas on table updates -/

theorem length_modifyNth {α : Type} (f : α → α) :
    ∀ (i : Nat) (l : List α), (modifyNth f i l).length = l.length := by
  intro i l
  induction l generalizing i with
  | nil => cases i <;> rfl
  | cons a as ih =>
    cases i with
    | zero => rfl
    | succ n => simpa [modifyNth] using ih n

theorem getD_modifyNth_self {α : Type} (f : α → α) :
    ∀ (i : Nat) (l : List α) (d : α), i < l.length →
      (modifyNth f i l).getD i d = f (l.getD i d) := by
  intro i l
  induction l generalizing i with
  | nil => intro d h; exact absurd h (by simp)
  | cons a as ih =>
    intro d h
    cases i with
    | zero => rfl
    | succ n =>
      have : n < as.length := by simpa using h
      simpa [modifyNth] using ih n d this

theorem getD_modifyNth_ne {α : Type} (f : α → α) :
    ∀ (i j : Nat) (l : List α) (d : α), j ≠ i →
      (modifyNth f i l).getD j d = l.getD j d := by
  intro i j l
  induction l generalizing i j with
  | nil => intro d _; cases i <;> rfl
  | cons a as ih =>
    intro d hne
    cases i with
    | zero =>
      cases j with
      | zero => exact absurd rfl hne
      | succ m => rfl
    | succ n =>
      cases j with
      | zero => rfl
      | succ m =>
        have : m ≠ n := fun h => hne (by omega)
        simpa [modifyNth] using ih n m d this

theorem modifyNth_out_of_range {α : Type} (f : α → α) :
    ∀ (i : Nat) (l : List α), l.length ≤ i → modifyNth f i l = l := by
  intro i l
  induction l generalizing i with
  | nil => intro _; cases i <;> rfl
  | cons a as ih =>
    intro h
    cases i with
    | zero => exact absurd h (by simp)
    | succ n =>
      have : as.length ≤ n := by simpa using h
      simp [modifyNth, ih n this]

/-! ### Helper lemmas on 8-bit masks -/

theorem land_lor_self (a b : Nat) : a &&& (a ||| b) = a := by
  apply Nat.eq_of_testBit_eq
  intro i
  simp only [Nat.testBit_and, Nat.testBit_or]
  cases a.testBit i <;> simp

theorem lor_land_self (a b : Nat) : (a ||| b) &&& b = b := by
  apply Nat.eq_of_testBit_eq
  intro i
  simp only [Nat.testBit_and, Nat.testBit_or]
  cases b.testBit i <;> simp

theorem land_compl8_cancel (a m : Nat) (ha : a < 256) (hm : m < 256)
    (h : a &&& m = 0) : (a ||| m) &&& compl8 m = a := by
  apply Nat.eq_of_testBit_eq
  intro i
  have hb := congrArg (fun x => Nat.testBit x i) h
  simp only [Nat.testBit_and, Nat.zero_testBit] at hb
  simp only [compl8, Nat.testBit_and, Nat.testBit_or, Nat.testBit_xor]
  by_cases hi : i < 8
  · have h255 : Nat.testBit 255 i = true := by
      have h8 : (255 : Nat) = 2 ^ 8 - 1 := by norm_num
      rw [h8, Nat.testBit_two_pow_sub_one]
      simpa using hi
    cases hm' : m.testBit i
    · simp [hm', h255]
    · rw [hm'] at hb
      have ha' : a.testBit i = false := by
        cases ha'' : a.testBit i
        · rfl
        · rw [ha''] at hb
          exact absurd hb (by simp)
      simp [ha', hm', h255]
  · have hpow : (256 : Nat) ≤ 2 ^ i := by
      calc (256 : Nat) = 2 ^ 8 := by norm_num
      _ ≤ 2 ^ i := Nat.pow_le_pow_right (by norm_num) (by omega)
    have ha' : a.testBit i = false :=
      Nat.testBit_eq_false_of_lt (lt_of_lt_of_le ha hpow)
    have hm'' : m.testBit i = false :=
      Nat.testBit_eq_false_of_lt (lt_of_lt_of_le hm hpow)
    have h255 : Nat.testBit 255 i = false :=
      Nat.testBit_eq_false_of_lt (lt_of_lt_of_le (by norm_num) hpow)
    simp [ha', hm'', h255]

/-! ### The scheduler's selection loop -/

theorem selInv_foldl (ts : List TaskDescriptor) (occ : Nat) :
    ∀ n, SelInv ts occ n ((List.range n).foldl (schedFold ts occ) (0, 0)) := by
  intro n
  induction n with
  | zero =>
    constructor
    · intro _
      exact ⟨rfl, fun i hi _ => absurd hi (Nat.not_lt_zero i)⟩
    · intro h
      exact absurd h (by simp [List.range_zero])
  | succ n ih =>
    rw [List.range_succ, List.foldl_append]
    simp only [List.foldl_cons, List.foldl_nil]
    set prev := (List.range n).foldl (schedFold ts occ) (0, 0) with hprev
    simp only [schedFold]
    set t := ts.getD n dfltTask with ht
    by_cases hc : t.state = TaskState.ready ∧ t.requiredResources &&& occ = 0
    · rw [if_pos hc]
      by_cases hlt : prev.1 < t.priority
      · rw [if_pos hlt]
        constructor
        · intro h0
          have h0' : t.priority = 0 := h0
          exact absurd h0' (by omega)
        · intro _
          refine ⟨Nat.lt_succ_self n, hc, rfl, ?_, ?_⟩
          · intro i hi hci
            show (ts.getD i dfltTask).priority ≤ t.priority
            rcases Nat.lt_succ_iff_lt_or_eq.mp hi with hi' | hi'
            · by_cases hp : prev.1 = 0
              · have := (ih.1 hp).2 i hi' hci
                omega
              · have hpos : 0 < prev.1 := Nat.pos_of_ne_zero hp
                have := (ih.2 hpos).2.2.2.1 i hi' hci
                omega
            · subst hi'
              exact le_refl _
          · intro i hi hci hpi
            have hpi' : (ts.getD i dfltTask).priority = t.priority := hpi
            show n ≤ i
            rcases Nat.lt_succ_iff_lt_or_eq.mp hi with hi' | hi'
            · by_cases hp : prev.1 = 0
              · have := (ih.1 hp).2 i hi' hci
                omega
              · have hpos : 0 < prev.1 := Nat.pos_of_ne_zero hp
                have := (ih.2 hpos).2.2.2.1 i hi' hci
                omega
            · omega
      · rw [if_neg hlt]
        push_neg at hlt
        constructor
        · intro h0
          obtain ⟨heq, hall⟩ := ih.1 h0
          refine ⟨heq, ?_⟩
          intro i hi hci
          rcases Nat.lt_succ_iff_lt_or_eq.mp hi with hi' | hi'
          · exact hall i hi' hci
          · subst hi'
            show t.priority = 0
            omega
        · intro hpos
          obtain ⟨h1, h2, h3, h4, h5⟩ := ih.2 hpos
          refine ⟨Nat.lt_succ_of_lt h1, h2, h3, ?_, ?_⟩
          · intro i hi hci
            rcases Nat.lt_succ_iff_lt_or_eq.mp hi with hi' | hi'
            · exact h4 i hi' hci
            · subst hi'
              exact hlt
          · intro i hi hci hpi
            rcases Nat.lt_succ_iff_lt_or_eq.mp hi with hi' | hi'
            · exact h5 i hi' hci hpi
            · subst hi'
              omega
    · rw [if_neg hc]
      constructor
      · intro h0
        obtain ⟨heq, hall⟩ := ih.1 h0
        refine ⟨heq, ?_⟩
        intro i hi hci
        rcases Nat.lt_succ_iff_lt_or_eq.mp hi with hi' | hi'
        · exact hall i hi' hci
        · subst hi'
          exact absurd hci hc
      · intro hpos
        obtain ⟨h1, h2, h3, h4, h5⟩ := ih.2 hpos
        refine ⟨Nat.lt_succ_of_lt h1, h2, h3, ?_, ?_⟩
        · intro i hi hci
          rcases Nat.lt_succ_iff_lt_or_eq.mp hi with hi' | hi'
          · exact h4 i hi' hci
          · subst hi'
            exact absurd hci hc
        · intro i hi hci hpi
          rcases Nat.lt_succ_iff_lt_or_eq.mp hi with hi' | hi'
          · exact h5 i hi' hci hpi
          · subst hi'
            exact absurd hci hc

theorem schedSelect_inv (ts : List TaskDescriptor) (occ : Nat) :
    SelInv ts occ ts.length (schedSelect ts occ) := by
  unfold schedSelect
  exact selInv_foldl ts occ ts.length

/-- The selected index is either the default `0` or a genuine candidate. -/
theorem schedSelect_snd_cases (ts : List TaskDescriptor) (occ : Nat) :
    (schedSelect ts occ).2 = 0 ∨
      (IsCand ts occ (schedSelect ts occ).2 ∧ (schedSelect ts occ).2 < ts.length) := by
  rcases Nat.eq_zero_or_pos (schedSelect ts occ).1 with h | h
  · left
    rw [((schedSelect_inv ts occ).1 h).1]
  · right
    obtain ⟨h1, h2, _⟩ := (schedSelect_inv ts occ).2 h
    exact ⟨h2, h1⟩

/-! ### Per-operation characterization lemmas -/

theorem SetEvent_other_fields (k : Kernel) (t m : Nat) :
    (Os_SetEvent t m k).currentTaskIndex = k.currentTaskIndex ∧
    (Os_SetEvent t m k).resourcesOccupied = k.resourcesOccupied ∧
    (Os_SetEvent t m k).timers = k.timers := by
  simp only [Os_SetEvent]
  split
  · split <;> exact ⟨rfl, rfl, rfl⟩
  · exact ⟨rfl, rfl, rfl⟩

theorem SetEvent_tasks_length (k : Kernel) (t m : Nat) :
    (Os_SetEvent t m k).tasks.length = k.tasks.length := by
  simp only [Os_SetEvent]
  split
  · split <;> simp [length_modifyNth]
  · simp [length_modifyNth]

/-- A `modifyNth` whose function preserves a projection preserves that
projection at every index. -/
theorem getD_modifyNth_preserve {β : Type} (g : TaskDescriptor → β)
    (f : TaskDescriptor → TaskDescriptor) (hf : ∀ u, g (f u) = g u) (j i : Nat)
    (l : List TaskDescriptor) :
    g ((modifyNth f j l).getD i dfltTask) = g (l.getD i dfltTask) := by
  by_cases hij : i = j
  · subst hij
    by_cases hi : i < l.length
    · rw [getD_modifyNth_self f i l dfltTask hi, hf]
    · rw [modifyNth_out_of_range f i l (Nat.le_of_not_lt hi)]
  · rw [getD_modifyNth_ne f j i l dfltTask hij]

theorem SetEvent_getTask_ne (k : Kernel) (t m i : Nat) (h : i ≠ t) :
    getTask (Os_SetEvent t m k) i = getTask k i := by
  simp only [Os_SetEvent, getTask]
  split
  · split <;>
      · dsimp only
        rw [getD_modifyNth_ne _ t i _ _ h, getD_modifyNth_ne _ t i _ _ h]
  · dsimp only
    rw [getD_modifyNth_ne _ t i _ _ h]

theorem SetEvent_getTask_self (k : Kernel) (t m : Nat) (ht : t < k.tasks.length) :
    (getTask (Os_SetEvent t m k) t).events = (getTask k t).events ||| m ∧
    (getTask (Os_SetEvent t m k) t).waitForEvents = (getTask k t).waitForEvents ∧
    (getTask (Os_SetEvent t m k) t).requiredResources = (getTask k t).requiredResources ∧
    (getTask (Os_SetEvent t m k) t).priority = (getTask k t).priority ∧
    ((getTask k t).waitForEvents &&& ((getTask k t).events ||| m) ≠ 0 →
      (getTask (Os_SetEvent t m k) t).state = TaskState.ready) ∧
    ((getTask k t).waitForEvents &&& ((getTask k t).events ||| m) = 0 →
      (getTask (Os_SetEvent t m k) t).state = (getTask k t).state) := by
  have hA : (modifyNth (fun u => { u with events := u.events ||| m }) t k.tasks).getD t dfltTask
      = ⟨(k.tasks.getD t dfltTask).state, (k.tasks.getD t dfltTask).events ||| m,
          (k.tasks.getD t dfltTask).waitForEvents,
          (k.tasks.getD t dfltTask).requiredResources,
          (k.tasks.getD t dfltTask).priority⟩ :=
    getD_modifyNth_self _ t k.tasks dfltTask ht
  have hlen1 : t < (modifyNth (fun u => { u with events := u.events ||| m }) t k.tasks).length := by
    rw [length_modifyNth]
    exact ht
  have hB : (modifyNth (fun u => { u with state := TaskState.ready }) t
        (modifyNth (fun u => { u with events := u.events ||| m }) t k.tasks)).getD t dfltTask
      = ⟨TaskState.ready,
          ((modifyNth (fun u => { u with events := u.events ||| m }) t k.tasks).getD t
            dfltTask).events,
          ((modifyNth (fun u => { u with events := u.events ||| m }) t k.tasks).getD t
            dfltTask).waitForEvents,
          ((modifyNth (fun u => { u with events := u.events ||| m }) t k.tasks).getD t
            dfltTask).requiredResources,
          ((modifyNth (fun u => { u with events := u.events ||| m }) t k.tasks).getD t
            dfltTask).priority⟩ :=
    getD_modifyNth_self _ t _ dfltTask hlen1
  simp only [Os_SetEvent, getTask]
  split
  · rename_i hcond
    rw [hA] at hcond
    dsimp only at hcond
    split <;>
      · dsimp only
        rw [hB, hA]
        exact ⟨rfl, rfl, rfl, rfl, fun _ => rfl, fun hz => absurd hz hcond⟩
  · rename_i hcond
    rw [hA] at hcond
    dsimp only at hcond
    push_neg at hcond
    dsimp only
    rw [hA]
    exact ⟨rfl, rfl, rfl, rfl, fun hnz => absurd hcond hnz, fun _ => rfl⟩

theorem SetEvent_force (k : Kernel) (t m : Nat) (ht : t < k.tasks.length) :
    ((getTask k t).waitForEvents &&& ((getTask k t).events ||| m) ≠ 0 →
      ((getTask k k.currentTaskIndex).priority < (getTask k t).priority →
        (Os_SetEvent t m k).forceSchedule = true) ∧
      (¬ (getTask k k.currentTaskIndex).priority < (getTask k t).priority →
        (Os_SetEvent t m k).forceSchedule = k.forceSchedule)) ∧
    ((getTask k t).waitForEvents &&& ((getTask k t).events ||| m) = 0 →
      (Os_SetEvent t m k).forceSchedule = k.forceSchedule) := by
  have hA : (modifyNth (fun u => { u with events := u.events ||| m }) t k.tasks).getD t dfltTask
      = ⟨(k.tasks.getD t dfltTask).state, (k.tasks.getD t dfltTask).events ||| m,
          (k.tasks.getD t dfltTask).waitForEvents,
          (k.tasks.getD t dfltTask).requiredResources,
          (k.tasks.getD t dfltTask).priority⟩ :=
    getD_modifyNth_self _ t k.tasks dfltTask ht
  have hP : ((modifyNth (fun u => { u with state := TaskState.ready }) t
        (modifyNth (fun u => { u with events := u.events ||| m }) t k.tasks)).getD
          k.currentTaskIndex dfltTask).priority
      = (k.tasks.getD k.currentTaskIndex dfltTask).priority := by
    rw [getD_modifyNth_preserve (fun u => u.priority)
        (fun u => { u with state := TaskState.ready }) (fun u => rfl) t k.currentTaskIndex _,
      getD_modifyNth_preserve (fun u => u.priority)
        (fun u => { u with events := u.events ||| m }) (fun u => rfl) t k.currentTaskIndex _]
  have hPt : ((modifyNth (fun u => { u with events := u.events ||| m }) t k.tasks).getD t
        dfltTask).priority
      = (k.tasks.getD t dfltTask).priority := by
    rw [hA]
  simp only [Os_SetEvent, getTask]
  split
  · rename_i hcond
    rw [hA] at hcond
    dsimp only at hcond
    split
    · rename_i hp
      rw [hP, hPt] at hp
      exact ⟨fun _ => ⟨fun _ => rfl, fun hnp => absurd hp hnp⟩, fun hz => absurd hz hcond⟩
    · rename_i hp
      rw [hP, hPt] at hp
      exact ⟨fun _ => ⟨fun hlt => absurd hlt hp, fun _ => rfl⟩, fun hz => absurd hz hcond⟩
  · rename_i hcond
    rw [hA] at hcond
    dsimp only at hcond
    push_neg at hcond
    exact ⟨fun hnz => absurd hcond hnz, fun _ => rfl⟩

theorem WaitEvents_other_fields (k : Kernel) (m : Nat) :
    (Os_WaitEvents m k).currentTaskIndex = k.currentTaskIndex ∧
    (Os_WaitEvents m k).resourcesOccupied = k.resourcesOccupied ∧
    (Os_WaitEvents m k).timers = k.timers := by
  simp only [Os_WaitEvents]
  split <;> exact ⟨rfl, rfl, rfl⟩

theorem WaitEvents_tasks_length (k : Kernel) (m : Nat) :
    (Os_WaitEvents m k).tasks.length = k.tasks.length := by
  simp only [Os_WaitEvents]
  split <;> simp [length_modifyNth]

theorem WaitEvents_getTask_ne (k : Kernel) (m i : Nat) (h : i ≠ k.currentTaskIndex) :
    getTask (Os_WaitEvents m k) i = getTask k i := by
  simp only [Os_WaitEvents, getTask]
  split
  · dsimp only
    rw [getD_modifyNth_ne _ _ i _ _ h, getD_modifyNth_ne _ _ i _ _ h]
  · dsimp only
    rw [getD_modifyNth_ne _ _ i _ _ h]

theorem WaitEvents_getTask_self (k : Kernel) (m : Nat)
    (hc : k.currentTaskIndex < k.tasks.length) :
    (getTask (Os_WaitEvents m k) k.currentTaskIndex).waitForEvents
      = (getTask k k.currentTaskIndex).waitForEvents ||| m ∧
    (getTask (Os_WaitEvents m k) k.currentTaskIndex).events
      = (getTask k k.currentTaskIndex).events ∧
    (getTask (Os_WaitEvents m k) k.currentTaskIndex).requiredResources
      = (getTask k k.currentTaskIndex).requiredResources ∧
    (getTask (Os_WaitEvents m k) k.currentTaskIndex).priority
      = (getTask k k.currentTaskIndex).priority ∧
    ((getTask k k.currentTaskIndex).events &&& m = 0 →
      (getTask (Os_WaitEvents m k) k.currentTaskIndex).state = TaskState.waiting ∧
      (Os_WaitEvents m k).forceSchedule = true) ∧
    ((getTask k k.currentTaskIndex).events &&& m ≠ 0 →
      (getTask (Os_WaitEvents m k) k.currentTaskIndex).state
        = (getTask k k.currentTaskIndex).state ∧
      (Os_WaitEvents m k).forceSchedule = k.forceSchedule) := by
  have hA : (modifyNth (fun u => { u with waitForEvents := u.waitForEvents ||| m })
        k.currentTaskIndex k.tasks).getD k.currentTaskIndex dfltTask
      = ⟨(k.tasks.getD k.currentTaskIndex dfltTask).state,
          (k.tasks.getD k.currentTaskIndex dfltTask).events,
          (k.tasks.getD k.currentTaskIndex dfltTask).waitForEvents ||| m,
          (k.tasks.getD k.currentTaskIndex dfltTask).requiredResources,
          (k.tasks.getD k.currentTaskIndex dfltTask).priority⟩ :=
    getD_modifyNth_self _ k.currentTaskIndex k.tasks dfltTask hc
  have hlen1 : k.currentTaskIndex <
      (modifyNth (fun u => { u with waitForEvents := u.waitForEvents ||| m })
        k.currentTaskIndex k.tasks).length := by
    rw [length_modifyNth]
    exact hc
  have hB : (modifyNth (fun u => { u with state := TaskState.waiting }) k.currentTaskIndex
        (modifyNth (fun u => { u with waitForEvents := u.waitForEvents ||| m })
          k.currentTaskIndex k.tasks)).getD k.currentTaskIndex dfltTask
      = ⟨TaskState.waiting,
          ((modifyNth (fun u => { u with waitForEvents := u.waitForEvents ||| m })
            k.currentTaskIndex k.tasks).getD k.currentTaskIndex dfltTask).events,
          ((modifyNth (fun u => { u with waitForEvents := u.waitForEvents ||| m })
            k.currentTaskIndex k.tasks).getD k.currentTaskIndex dfltTask).waitForEvents,
          ((modifyNth (fun u => { u with waitForEvents := u.waitForEvents ||| m })
            k.currentTaskIndex k.tasks).getD k.currentTaskIndex dfltTask).requiredResources,
          ((modifyNth (fun u => { u with waitForEvents := u.waitForEvents ||| m })
            k.currentTaskIndex k.tasks).getD k.currentTaskIndex dfltTask).priority⟩ :=
    getD_modifyNth_self _ k.currentTaskIndex _ dfltTask hlen1
  simp only [Os_WaitEvents, getTask]
  split
  · rename_i hcond
    rw [hA] at hcond
    dsimp only at hcond
    dsimp only
    rw [hB, hA]
    exact ⟨rfl, rfl, rfl, rfl, fun _ => ⟨rfl, rfl⟩, fun hnz => absurd hcond hnz⟩
  · rename_i hcond
    rw [hA] at hcond
    dsimp only at hcond
    dsimp only
    rw [hA]
    exact ⟨rfl, rfl, rfl, rfl, fun hz => absurd hz hcond, fun _ => ⟨rfl, rfl⟩⟩

theorem ClearEvents_spec (k : Kernel) (m : Nat) :
    (Os_ClearEvents m k).currentTaskIndex = k.currentTaskIndex ∧
    (Os_ClearEvents m k).resourcesOccupied = k.resourcesOccupied ∧
    (Os_ClearEvents m k).timers = k.timers ∧
    (Os_ClearEvents m k).forceSchedule = k.forceSchedule ∧
    (Os_ClearEvents m k).tasks.length = k.tasks.length ∧
    (∀ i, i ≠ k.currentTaskIndex → getTask (Os_ClearEvents m k) i = getTask k i) ∧
    (∀ i, (getTask (Os_ClearEvents m k) i).state = (getTask k i).state ∧
      (getTask (Os_ClearEvents m k) i).waitForEvents = (getTask k i).waitForEvents) ∧
    (k.currentTaskIndex < k.tasks.length →
      (getTask (Os_ClearEvents m k) k.currentTaskIndex).events
        = (getTask k k.currentTaskIndex).events &&& compl8 m) := by
  refine ⟨rfl, rfl, rfl, rfl, ?_, ?_, ?_, ?_⟩
  · simp [Os_ClearEvents, length_modifyNth]
  · intro i h
    simp only [Os_ClearEvents, getTask]
    rw [getD_modifyNth_ne _ _ i _ _ h]
  · intro i
    constructor
    · exact getD_modifyNth_preserve (fun u => u.state)
        (fun u => { u with events := u.events &&& compl8 m }) (fun u => rfl)
        k.currentTaskIndex i k.tasks
    · exact getD_modifyNth_preserve (fun u => u.waitForEvents)
        (fun u => { u with events := u.events &&& compl8 m }) (fun u => rfl)
        k.currentTaskIndex i k.tasks
  · intro hc
    simp only [Os_ClearEvents, getTask]
    rw [getD_modifyNth_self _ k.currentTaskIndex k.tasks dfltTask hc]

theorem GetResources_spec (k : Kernel) (m : Nat) :
    (Os_GetResources m k).tasks = k.tasks ∧
    (Os_GetResources m k).currentTaskIndex = k.currentTaskIndex ∧
    (Os_GetResources m k).resourcesOccupied = k.resourcesOccupied ||| m ∧
    (Os_GetResources m k).timers = k.timers ∧
    (Os_GetResources m k).forceSchedule = k.forceSchedule :=
  ⟨rfl, rfl, rfl, rfl, rfl⟩

theorem ReleaseResources_spec (k : Kernel) (m : Nat) :
    (Os_ReleaseResources m k).tasks = k.tasks ∧
    (Os_ReleaseResources m k).currentTaskIndex = k.currentTaskIndex ∧
    (Os_ReleaseResources m k).resourcesOccupied = k.resourcesOccupied &&& compl8 m ∧
    (Os_ReleaseResources m k).timers = k.timers ∧
    (Os_ReleaseResources m k).forceSchedule = true :=
  ⟨rfl, rfl, rfl, rfl, rfl⟩

theorem SetTimer_spec (k : Kernel) (t v : Nat) :
    (Os_SetTimer t v k).tasks = k.tasks ∧
    (Os_SetTimer t v k).currentTaskIndex = k.currentTaskIndex ∧
    (Os_SetTimer t v k).resourcesOccupied = k.resourcesOccupied ∧
    (Os_SetTimer t v k).forceSchedule = k.forceSchedule ∧
    (Os_SetTimer t v k).timers
      = modifyNth (fun tm => { tm with value := v }) t k.timers :=
  ⟨rfl, rfl, rfl, rfl, rfl⟩

/-- `Os_TickTimer` either leaves the state unchanged, or only decrements a
timer, or decrements a timer and then behaves as `Os_SetEvent` of the
timer's owner and event on a state with the same task table. -/
theorem TickTimer_cases (k : Kernel) (tid : Nat) :
    Os_TickTimer tid k = k ∨
    (∃ k1 : Kernel, k1.tasks = k.tasks ∧ k1.currentTaskIndex = k.currentTaskIndex ∧
      k1.forceSchedule = k.forceSchedule ∧ k1.resourcesOccupied = k.resourcesOccupied ∧
      (Os_TickTimer tid k = k1 ∨
        Os_TickTimer tid k
          = Os_SetEvent (getTimer k tid).taskID (getTimer k tid).event k1)) := by
  simp only [Os_TickTimer]
  split
  · split
    · right
      exact ⟨{ k with
          timers := modifyNth (fun u => { u with value := u.value - 1 }) tid k.timers },
        rfl, rfl, rfl, rfl, Or.inr rfl⟩
    · right
      exact ⟨{ k with
          timers := modifyNth (fun u => { u with value := u.value - 1 }) tid k.timers },
        rfl, rfl, rfl, rfl, Or.inl rfl⟩
  · left
    rfl

/-- First branch of `Os_Scheduler`: the current task left the RUNNING
state, so the selected task is dispatched. -/
theorem Scheduler_branch_moved (k : Kernel)
    (h : (getTask k k.currentTaskIndex).state = TaskState.ready ∨
      (getTask k k.currentTaskIndex).state = TaskState.waiting) :
    Os_Scheduler k =
      { k with
          tasks := modifyNth (fun t => { t with state := TaskState.running })
            (schedSelect k.tasks k.resourcesOccupied).2 k.tasks
          currentTaskIndex := (schedSelect k.tasks k.resourcesOccupied).2 } := by
  simp only [Os_Scheduler]
  rw [if_pos h]

/-- Second branch of `Os_Scheduler`: a strictly higher-priority task was
selected, so the current task is preempted. -/
theorem Scheduler_branch_preempt (k : Kernel)
    (h : (getTask k k.currentTaskIndex).state = TaskState.running)
    (hp : (getTask k k.currentTaskIndex).priority
        < (getTask k (schedSelect k.tasks k.resourcesOccupied).2).priority) :
    Os_Scheduler k =
      { k with
          tasks := modifyNth (fun t => { t with state := TaskState.running })
            (schedSelect k.tasks k.resourcesOccupied).2
            (modifyNth (fun t => { t with state := TaskState.ready })
              k.currentTaskIndex k.tasks)
          currentTaskIndex := (schedSelect k.tasks k.resourcesOccupied).2 } := by
  have hnot : ¬ ((getTask k k.currentTaskIndex).state = TaskState.ready ∨
      (getTask k k.currentTaskIndex).state = TaskState.waiting) := by
    rw [h]
    simp
  simp only [Os_Scheduler]
  rw [if_neg hnot, if_pos h, if_pos hp]

/-- Third branch of `Os_Scheduler`: the current task keeps running. -/
theorem Scheduler_branch_keep (k : Kernel)
    (h : (getTask k k.currentTaskIndex).state = TaskState.running)
    (hp : ¬ (getTask k k.currentTaskIndex).priority
        < (getTask k (schedSelect k.tasks k.resourcesOccupied).2).priority) :
    Os_Scheduler k = k := by
  have hnot : ¬ ((getTask k k.currentTaskIndex).state = TaskState.ready ∨
      (getTask k k.currentTaskIndex).state = TaskState.waiting) := by
    rw [h]
    simp
  simp only [Os_Scheduler]
  rw [if_neg hnot, if_pos h, if_neg hp]

/-! ### The single-RUNNING-task invariant -/

theorem getD_mem {α : Type} (l : List α) (i : Nat) (d : α) (h : i < l.length) :
    l.getD i d ∈ l := by
  induction l generalizing i with
  | nil => exact absurd h (by simp)
  | cons a as ih =>
    cases i with
    | zero => exact List.mem_cons_self a as
    | succ n =>
      have : n < as.length := by simpa using h
      exact List.mem_cons_of_mem a (ih n this)

theorem runningIsCurrent_transfer (k k1 : Kernel) (ht : k1.tasks = k.tasks)
    (hc : k1.currentTaskIndex = k.currentTaskIndex) (h : RunningIsCurrent k) :
    RunningIsCurrent k1 := by
  intro i hi hrun
  rw [hc]
  rw [getTask, ht] at hrun
  rw [ht] at hi
  exact h i hi hrun

theorem runningIsCurrent_SetEvent (t m : Nat) (k : Kernel) (h : RunningIsCurrent k) :
    RunningIsCurrent (Os_SetEvent t m k) := by
  intro i hi hrun
  rw [(SetEvent_other_fields k t m).1]
  rw [SetEvent_tasks_length] at hi
  by_cases hit : i = t
  · subst hit
    obtain ⟨-, -, -, -, hwake, hsame⟩ := SetEvent_getTask_self k i m hi
    by_cases hw : (getTask k i).waitForEvents &&& ((getTask k i).events ||| m) ≠ 0
    · rw [hwake hw] at hrun
      exact absurd hrun (by simp)
    · push_neg at hw
      rw [hsame hw] at hrun
      exact h i hi hrun
  · rw [SetEvent_getTask_ne k t m i hit] at hrun
    exact h i hi hrun

theorem runningIsCurrent_step (op : Op) (k : Kernel) (h : RunningIsCurrent k) :
    RunningIsCurrent (applyOp op k) := by
  cases op with
  | schedule =>
    show RunningIsCurrent (Os_Scheduler k)
    cases hst : (getTask k k.currentTaskIndex).state with
    | ready =>
      rw [Scheduler_branch_moved k (Or.inl hst)]
      intro i hi hrun
      dsimp only at hi hrun ⊢
      by_cases hin : i = (schedSelect k.tasks k.resourcesOccupied).2
      · exact hin
      · rw [getTask, getD_modifyNth_ne _ _ i _ _ hin] at hrun
        rw [length_modifyNth] at hi
        have hcur := h i hi hrun
        have hst' : (k.tasks.getD k.currentTaskIndex dfltTask).state = TaskState.ready := hst
        rw [hcur] at hrun
        rw [hst'] at hrun
        exact absurd hrun (by simp)
    | waiting =>
      rw [Scheduler_branch_moved k (Or.inr hst)]
      intro i hi hrun
      dsimp only at hi hrun ⊢
      by_cases hin : i = (schedSelect k.tasks k.resourcesOccupied).2
      · exact hin
      · rw [getTask, getD_modifyNth_ne _ _ i _ _ hin] at hrun
        rw [length_modifyNth] at hi
        have hcur := h i hi hrun
        have hst' : (k.tasks.getD k.currentTaskIndex dfltTask).state = TaskState.waiting := hst
        rw [hcur] at hrun
        rw [hst'] at hrun
        exact absurd hrun (by simp)
    | running =>
      by_cases hp : (getTask k k.currentTaskIndex).priority
          < (getTask k (schedSelect k.tasks k.resourcesOccupied).2).priority
      · rw [Scheduler_branch_preempt k hst hp]
        intro i hi hrun
        dsimp only at hi hrun ⊢
        by_cases hin : i = (schedSelect k.tasks k.resourcesOccupied).2
        · exact hin
        · rw [getTask, getD_modifyNth_ne _ _ i _ _ hin] at hrun
          rw [length_modifyNth, length_modifyNth] at hi
          by_cases hic : i = k.currentTaskIndex
          · rw [hic] at hrun hi
            rw [getD_modifyNth_self _ k.currentTaskIndex k.tasks dfltTask hi] at hrun
            simp at hrun
          · rw [getD_modifyNth_ne _ _ i _ _ hic] at hrun
            exact absurd (h i hi hrun) hic
      · rw [Scheduler_branch_keep k hst hp]
        exact h
  | setEvent t m => exact runningIsCurrent_SetEvent t m k h
  | clearEvents m =>
    show RunningIsCurrent (Os_ClearEvents m k)
    intro i hi hrun
    obtain ⟨hc, -, -, -, hlen, -, hsw, -⟩ := ClearEvents_spec k m
    rw [hc]
    rw [hlen] at hi
    rw [(hsw i).1] at hrun
    exact h i hi hrun
  | getEvents => exact h
  | waitEvents m =>
    show RunningIsCurrent (Os_WaitEvents m k)
    intro i hi hrun
    rw [(WaitEvents_other_fields k m).1]
    rw [WaitEvents_tasks_length] at hi
    by_cases hic : i = k.currentTaskIndex
    · exact hic
    · rw [WaitEvents_getTask_ne k m i hic] at hrun
      exact absurd (h i hi hrun) hic
  | getResources m =>
    exact runningIsCurrent_transfer k _ (GetResources_spec k m).1
      (GetResources_spec k m).2.1 h
  | releaseResources m =>
    exact runningIsCurrent_transfer k _ (ReleaseResources_spec k m).1
      (ReleaseResources_spec k m).2.1 h
  | setTimer t v =>
    exact runningIsCurrent_transfer k _ (SetTimer_spec k t v).1
      (SetTimer_spec k t v).2.1 h
  | tickTimer tid =>
    show RunningIsCurrent (Os_TickTimer tid k)
    rcases TickTimer_cases k tid with heq | ⟨k1, ht1, hc1, -, -, heq | heq⟩
    · rw [heq]
      exact h
    · rw [heq]
      exact runningIsCurrent_transfer k k1 ht1 hc1 h
    · rw [heq]
      exact runningIsCurrent_SetEvent _ _ k1 (runningIsCurrent_transfer k k1 ht1 hc1 h)

theorem runningIsCurrent_run (ops : List Op) (k : Kernel) (h : RunningIsCurrent k) :
    RunningIsCurrent (run ops k) := by
  induction ops generalizing k with
  | nil => exact h
  | cons op rest ih =>
    show RunningIsCurrent (run rest (applyOp op k))
    exact ih (applyOp op k) (runningIsCurrent_step op k h)

theorem land_subset_trans (a b c : Nat) (h1 : a &&& b = a) (h2 : b &&& c = b) :
    a &&& c = a := by
  apply Nat.eq_of_testBit_eq
  intro i
  have hb1 := congrArg (fun x => Nat.testBit x i) h1
  have hb2 := congrArg (fun x => Nat.testBit x i) h2
  simp only [Nat.testBit_and] at hb1 hb2
  simp only [Nat.testBit_and]
  cases ha : a.testBit i
  · simp
  · rw [ha] at hb1
    simp only [Bool.true_and] at hb1
    rw [hb1] at hb2
    simp only [Bool.true_and] at hb2
    simp [hb2]

theorem land_lor_absorb (a b c : Nat) (h : a &&& c ≠ 0) : a &&& (b ||| c) ≠ 0 := by
  intro hz
  apply h
  apply Nat.eq_of_testBit_eq
  intro i
  have hb := congrArg (fun x => Nat.testBit x i) hz
  simp only [Nat.testBit_and, Nat.testBit_or, Nat.zero_testBit] at hb
  simp only [Nat.testBit_and, Nat.zero_testBit]
  cases ha : a.testBit i
  · simp
  · cases hc : c.testBit i
    · simp
    · rw [ha, hc] at hb
      simp at hb

theorem SetEvent_out_of_range (k : Kernel) (t m : Nat) (h : k.tasks.length ≤ t) :
    Os_SetEvent t m k = k := by
  have hd : k.tasks.getD t dfltTask = dfltTask := List.getD_eq_default _ _ h
  have hcond : ¬ ((k.tasks.getD t dfltTask).waitForEvents &&&
      (k.tasks.getD t dfltTask).events ≠ 0) := by
    rw [hd]
    simp [dfltTask]
  simp only [Os_SetEvent, getTask]
  rw [modifyNth_out_of_range _ _ _ h]
  rw [if_neg hcond]

theorem SetEvent_wait_preserved (k : Kernel) (t m i : Nat) :
    (getTask (Os_SetEvent t m k) i).waitForEvents = (getTask k i).waitForEvents := by
  by_cases hit : i = t
  · subst hit
    by_cases hlen : i < k.tasks.length
    · exact (SetEvent_getTask_self k i m hlen).2.1
    · rw [SetEvent_out_of_range k i m (Nat.le_of_not_lt hlen)]
  · rw [SetEvent_getTask_ne k t m i hit]

theorem Scheduler_wait_preserved (k : Kernel) (i : Nat) :
    (getTask (Os_Scheduler k) i).waitForEvents = (getTask k i).waitForEvents := by
  cases hst : (getTask k k.currentTaskIndex).state with
  | ready =>
    rw [Scheduler_branch_moved k (Or.inl hst)]
    exact getD_modifyNth_preserve (fun u => u.waitForEvents)
      (fun u => { u with state := TaskState.running }) (fun u => rfl) _ i k.tasks
  | waiting =>
    rw [Scheduler_branch_moved k (Or.inr hst)]
    exact getD_modifyNth_preserve (fun u => u.waitForEvents)
      (fun u => { u with state := TaskState.running }) (fun u => rfl) _ i k.tasks
  | running =>
    by_cases hp : (getTask k k.currentTaskIndex).priority
        < (getTask k (schedSelect k.tasks k.resourcesOccupied).2).priority
    · rw [Scheduler_branch_preempt k hst hp]
      exact (getD_modifyNth_preserve (fun u => u.waitForEvents)
          (fun u => { u with state := TaskState.running }) (fun u => rfl) _ i _).trans
        (getD_modifyNth_preserve (fun u => u.waitForEvents)
          (fun u => { u with state := TaskState.ready }) (fun u => rfl) _ i _)
    · rw [Scheduler_branch_keep k hst hp]

theorem WaitEvents_out_of_range (k : Kernel) (m : Nat)
    (h : k.tasks.length ≤ k.currentTaskIndex) :
    Os_WaitEvents m k = { k with forceSchedule := true } := by
  have hd : k.tasks.getD k.currentTaskIndex dfltTask = dfltTask :=
    List.getD_eq_default _ _ h
  have hcond : (k.tasks.getD k.currentTaskIndex dfltTask).events &&& m = 0 := by
    rw [hd]
    simp [dfltTask]
  simp only [Os_WaitEvents, getTask]
  rw [modifyNth_out_of_range _ _ _ h]
  rw [modifyNth_out_of_range _ _ _ h]
  rw [if_pos hcond]

theorem waitMask_monotone_step (op : Op) (k : Kernel) (i : Nat) :
    (getTask k i).waitForEvents &&& (getTask (applyOp op k) i).waitForEvents
      = (getTask k i).waitForEvents := by
  cases op with
  | schedule =>
    show (getTask k i).waitForEvents &&& (getTask (Os_Scheduler k) i).waitForEvents
      = (getTask k i).waitForEvents
    rw [Scheduler_wait_preserved k i]
    exact Nat.and_self _
  | setEvent t m =>
    show (getTask k i).waitForEvents &&& (getTask (Os_SetEvent t m k) i).waitForEvents
      = (getTask k i).waitForEvents
    rw [SetEvent_wait_preserved k t m i]
    exact Nat.and_self _
  | clearEvents m =>
    show (getTask k i).waitForEvents &&& (getTask (Os_ClearEvents m k) i).waitForEvents
      = (getTask k i).waitForEvents
    rw [((ClearEvents_spec k m).2.2.2.2.2.2.1 i).2]
    exact Nat.and_self _
  | getEvents => exact Nat.and_self _
  | waitEvents m =>
    show (getTask k i).waitForEvents &&& (getTask (Os_WaitEvents m k) i).waitForEvents
      = (getTask k i).waitForEvents
    by_cases hic : i = k.currentTaskIndex
    · rw [hic]
      by_cases hlen : k.currentTaskIndex < k.tasks.length
      · rw [(WaitEvents_getTask_self k m hlen).1]
        exact land_lor_self _ _
      · rw [WaitEvents_out_of_range k m (Nat.le_of_not_lt hlen)]
        exact Nat.and_self _
    · rw [WaitEvents_getTask_ne k m i hic]
      exact Nat.and_self _
  | getResources m => exact Nat.and_self _
  | releaseResources m => exact Nat.and_self _
  | setTimer t v => exact Nat.and_self _
  | tickTimer tid =>
    show (getTask k i).waitForEvents &&& (getTask (Os_TickTimer tid k) i).waitForEvents
      = (getTask k i).waitForEvents
    rcases TickTimer_cases k tid with heq | ⟨k1, ht1, -, -, -, heq | heq⟩
    · rw [heq]
      exact Nat.and_self _
    · rw [heq]
      show (getTask k i).waitForEvents &&& (k1.tasks.getD i dfltTask).waitForEvents = _
      rw [ht1]
      exact Nat.and_self _
    · rw [heq]
      rw [SetEvent_wait_preserved k1 _ _ i]
      show (getTask k i).waitForEvents &&& (k1.tasks.getD i dfltTask).waitForEvents = _
      rw [ht1]
      exact Nat.and_self _

theorem waitMask_monotone_run (ops : List Op) (k : Kernel) (i : Nat) :
    (getTask k i).waitForEvents &&& (getTask (run ops k) i).waitForEvents
      = (getTask k i).waitForEvents := by
  induction ops generalizing k with
  | nil => exact Nat.and_self _
  | cons op rest ih =>
    show (getTask k i).waitForEvents &&& (getTask (run rest (applyOp op k)) i).waitForEvents
      = (getTask k i).waitForEvents
    exact land_subset_trans _ _ _ (waitMask_monotone_step op k i) (ih (applyOp op k))

theorem getTask_congr (k k' : Kernel) (i : Nat) (h : k'.tasks = k.tasks) :
    getTask k' i = getTask k i := by
  unfold getTask
  rw [h]

theorem TickTimer_zero (k : Kernel) (t : Nat) (h : (getTimer k t).value = 0) :
    Os_TickTimer t k = k := by
  simp only [Os_TickTimer]
  rw [if_neg (by omega : ¬ 0 < (getTimer k t).value)]

theorem SetTimer_getTimer_self (k : Kernel) (t v : Nat) (ht : t < k.timers.length) :
    getTimer (Os_SetTimer t v k) t
      = ⟨v, (getTimer k t).taskID, (getTimer k t).event⟩ := by
  show (modifyNth (fun tm => { tm with value := v }) t k.timers).getD t dfltTimer = _
  rw [getD_modifyNth_self _ t k.timers dfltTimer ht]
  rfl

theorem TickTimer_pos (k : Kernel) (t : Nat) (ht : t < k.timers.length)
    (h : 0 < (getTimer k t).value) :
    Os_TickTimer t k =
      if (getTimer k t).value = 1 then
        Os_SetEvent (getTimer k t).taskID (getTimer k t).event
          { k with timers := modifyNth (fun u => { u with value := u.value - 1 }) t k.timers }
      else
        { k with timers := modifyNth (fun u => { u with value := u.value - 1 }) t k.timers } := by
  have hg : (getTimer { k with
      timers := modifyNth (fun u => { u with value := u.value - 1 }) t k.timers } t).value
      = (getTimer k t).value - 1 := by
    show ((modifyNth (fun u => { u with value := u.value - 1 }) t k.timers).getD t
      dfltTimer).value = _
    rw [getD_modifyNth_self _ t k.timers dfltTimer ht]
    rfl
  simp only [Os_TickTimer]
  rw [if_pos h]
  by_cases h1 : (getTimer k t).value = 1
  · have hc : (getTimer { k with
        timers := modifyNth (fun u => { u with value := u.value - 1 }) t k.timers } t).value
        = 0 := by
      rw [hg]
      omega
    rw [if_pos hc, if_pos h1]
  · have hc : ¬ (getTimer { k with
        timers := modifyNth (fun u => { u with value := u.value - 1 }) t k.timers } t).value
        = 0 := by
      rw [hg]
      omega
    rw [if_neg hc, if_neg h1]

/-! ### The claims -/

/-- C4 as frozen is refuted: in `kHighPrio` the target task 1 has priority
5, strictly above the current task's 0, yet `set_event(1, 1)` does not
raise the forced-reschedule signal because task 1's wait mask does not
intersect its events. -/
theorem C4_counterexample :
    (getTask kHighPrio kHighPrio.currentTaskIndex).priority
      < (getTask kHighPrio 1).priority ∧
    (Os_SetEvent 1 1 kHighPrio).forceSchedule = false := by
  constructor
  · decide
  · decide

/-- C4 (amended): after `set_event(t, m)` the target's events contain every
bit of `m`; when the updated events intersect the target's wait mask the
target is set READY and, if additionally the target's priority exceeds the
current task's, the forced-reschedule signal is raised; when the wait mask
is not hit, the target's state and the signal are unchanged. -/
theorem C4_set_event (k : Kernel) (t m : Nat) (ht : t < k.tasks.length) :
    (getTask (Os_SetEvent t m k) t).events &&& m = m ∧
    ((getTask k t).waitForEvents &&& ((getTask k t).events ||| m) ≠ 0 →
      (getTask (Os_SetEvent t m k) t).state = TaskState.ready ∧
      ((getTask k k.currentTaskIndex).priority < (getTask k t).priority →
        (Os_SetEvent t m k).forceSchedule = true)) ∧
    ((getTask k t).waitForEvents &&& ((getTask k t).events ||| m) = 0 →
      (getTask (Os_SetEvent t m k) t).state = (getTask k t).state ∧
      (Os_SetEvent t m k).forceSchedule = k.forceSchedule) := by
  obtain ⟨hev, -, -, -, hwake, hsame⟩ := SetEvent_getTask_self k t m ht
  obtain ⟨hf1, hf2⟩ := SetEvent_force k t m ht
  refine ⟨?_, ?_, ?_⟩
  · rw [hev]
    exact lor_land_self _ _
  · intro hnz
    exact ⟨hwake hnz, fun hlt => (hf1 hnz).1 hlt⟩
  · intro hz
    exact ⟨hsame hz, hf2 hz⟩

/-- C4 witness: the amended statement evaluated on `kTwo`, task 1, mask 1. -/
theorem C4_set_event_witness :
    1 < kTwo.tasks.length ∧ (getTask (Os_SetEvent 1 1 kTwo) 1).events &&& 1 = 1 :=
  ⟨by decide, (C4_set_event kTwo 1 1 (by decide)).1⟩

/-- C5: `wait_events(m)` first ORs `m` into the current task's wait mask;
when the current task's events intersect `m` it returns immediately with
the task's state and events and all other kernel state unchanged; only
when no awaited event is pending does it set the state to WAITING and
raise the forced-reschedule signal. -/
theorem C5_wait_events (k : Kernel) (m : Nat)
    (hc : k.currentTaskIndex < k.tasks.length) :
    (getTask (Os_WaitEvents m k) k.currentTaskIndex).waitForEvents
      = (getTask k k.currentTaskIndex).waitForEvents ||| m ∧
    ((getTask k k.currentTaskIndex).events &&& m ≠ 0 →
      (getTask (Os_WaitEvents m k) k.currentTaskIndex).state
        = (getTask k k.currentTaskIndex).state ∧
      (getTask (Os_WaitEvents m k) k.currentTaskIndex).events
        = (getTask k k.currentTaskIndex).events ∧
      (∀ j, j ≠ k.currentTaskIndex → getTask (Os_WaitEvents m k) j = getTask k j) ∧
      (Os_WaitEvents m k).currentTaskIndex = k.currentTaskIndex ∧
      (Os_WaitEvents m k).resourcesOccupied = k.resourcesOccupied ∧
      (Os_WaitEvents m k).timers = k.timers ∧
      (Os_WaitEvents m k).forceSchedule = k.forceSchedule) ∧
    ((getTask k k.currentTaskIndex).events &&& m = 0 →
      (getTask (Os_WaitEvents m k) k.currentTaskIndex).state = TaskState.waiting ∧
      (Os_WaitEvents m k).forceSchedule = true) := by
  obtain ⟨hw, hev, -, -, hwait, himm⟩ := WaitEvents_getTask_self k m hc
  refine ⟨hw, ?_, hwait⟩
  intro hnz
  obtain ⟨hst, hfs⟩ := himm hnz
  exact ⟨hst, hev, fun j hj => WaitEvents_getTask_ne k m j hj,
    (WaitEvents_other_fields k m).1, (WaitEvents_other_fields k m).2.1,
    (WaitEvents_other_fields k m).2.2, hfs⟩

/-- C5 witness: the statement evaluated on `kTwo` with mask 1. -/
theorem C5_wait_events_witness :
    kTwo.currentTaskIndex < kTwo.tasks.length ∧
    (getTask (Os_WaitEvents 1 kTwo) kTwo.currentTaskIndex).waitForEvents
      = (getTask kTwo kTwo.currentTaskIndex).waitForEvents ||| 1 :=
  ⟨by decide, (C5_wait_events kTwo 1 (by decide)).1⟩

/-- C6 as frozen is refuted: with `resources_occupied = 1` already,
`get_resources(1); release_resources(1)` ends with the bitmap at 0, not at
its original value 1. -/
theorem C6_counterexample :
    kRes.resourcesOccupied = 1 ∧
    (Os_ReleaseResources 1 (Os_GetResources 1 kRes)).resourcesOccupied = 0 := by
  constructor
  · decide
  · decide

/-- C6 (amended): provided no bit of the 8-bit mask `m` is already
occupied, `get_resources(m)` followed by `release_resources(m)` leaves
`resources_occupied` unchanged. -/
theorem C6_resources_roundtrip (k : Kernel) (m : Nat)
    (ho : k.resourcesOccupied < 256) (hm : m < 256)
    (hdisj : k.resourcesOccupied &&& m = 0) :
    (Os_ReleaseResources m (Os_GetResources m k)).resourcesOccupied
      = k.resourcesOccupied := by
  show (k.resourcesOccupied ||| m) &&& compl8 m = k.resourcesOccupied
  exact land_compl8_cancel _ m ho hm hdisj

/-- C6 witness: the amended round trip evaluated on `kTwo` with mask 3. -/
theorem C6_resources_roundtrip_witness :
    (kTwo.resourcesOccupied < 256 ∧ 3 < 256 ∧ kTwo.resourcesOccupied &&& 3 = 0) ∧
    (Os_ReleaseResources 3 (Os_GetResources 3 kTwo)).resourcesOccupied
      = kTwo.resourcesOccupied :=
  ⟨⟨by decide, by decide, by decide⟩,
    C6_resources_roundtrip kTwo 3 (by decide) (by decide) (by decide)⟩

theorem getTimer_congr (k k' : Kernel) (i : Nat) (h : k'.timers = k.timers) :
    getTimer k' i = getTimer k i := by
  unfold getTimer
  rw [h]

theorem TickTimer_dec_value (k : Kernel) (t : Nat) (ht : t < k.timers.length)
    (hpos : 0 < (getTimer k t).value) :
    (getTimer (Os_TickTimer t k) t).value = (getTimer k t).value - 1 := by
  have hval : (getTimer { k with
      timers := modifyNth (fun u => { u with value := u.value - 1 }) t k.timers } t).value
      = (getTimer k t).value - 1 := by
    unfold getTimer
    dsimp only
    rw [getD_modifyNth_self _ t k.timers dfltTimer ht]
  by_cases h1 : (getTimer k t).value = 1
  · rw [TickTimer_pos k t ht hpos, if_pos h1]
    rw [getTimer_congr { k with
        timers := modifyNth (fun u => { u with value := u.value - 1 }) t k.timers } _ t
      ((SetEvent_other_fields _ _ _).2.2)]
    exact hval
  · rw [TickTimer_pos k t ht hpos, if_neg h1]
    exact hval

theorem TickTimer_tasks_nonexpire (k : Kernel) (t : Nat) (ht : t < k.timers.length)
    (hne : (getTimer k t).value ≠ 1) :
    (Os_TickTimer t k).tasks = k.tasks := by
  by_cases h0 : (getTimer k t).value = 0
  · rw [TickTimer_zero k t h0]
  · rw [TickTimer_pos k t ht (by omega), if_neg hne]

theorem TickTimer_force_nonexpire (k : Kernel) (t : Nat) (ht : t < k.timers.length)
    (hne : (getTimer k t).value ≠ 1) :
    (Os_TickTimer t k).forceSchedule = k.forceSchedule := by
  by_cases h0 : (getTimer k t).value = 0
  · rw [TickTimer_zero k t h0]
  · rw [TickTimer_pos k t ht (by omega), if_neg hne]

theorem TickTimer_timers_length (k : Kernel) (t : Nat) :
    (Os_TickTimer t k).timers.length = k.timers.length := by
  simp only [Os_TickTimer]
  split
  · split
    · rw [(SetEvent_other_fields _ _ _).2.2]
      exact length_modifyNth _ _ _
    · exact length_modifyNth _ _ _
  · rfl

theorem TickTimer_getTimer_nonexpire (k : Kernel) (t : Nat) (ht : t < k.timers.length)
    (hgt : 1 < (getTimer k t).value) :
    getTimer (Os_TickTimer t k) t
      = ⟨(getTimer k t).value - 1, (getTimer k t).taskID, (getTimer k t).event⟩ := by
  rw [TickTimer_pos k t ht (by omega), if_neg (by omega)]
  unfold getTimer
  dsimp only
  rw [getD_modifyNth_self _ t k.timers dfltTimer ht]

theorem TickTimer_expire_events (k : Kernel) (t : Nat) (ht : t < k.timers.length)
    (how : (getTimer k t).taskID < k.tasks.length) (h1 : (getTimer k t).value = 1) :
    (getTask (Os_TickTimer t k) (getTimer k t).taskID).events
      = (getTask k (getTimer k t).taskID).events ||| (getTimer k t).event := by
  rw [TickTimer_pos k t ht (by omega), if_pos h1]
  have hev := (SetEvent_getTask_self
    { k with timers := modifyNth (fun u => { u with value := u.value - 1 }) t k.timers }
    (getTimer k t).taskID (getTimer k t).event how).1
  rw [hev]
  rfl

/-- C7: `tick_timer` does nothing on a zero timer; on a positive timer it
decrements the count, posts the configured event to the owner exactly when
the count reaches zero, and otherwise touches no task; after
`set_timer(t, 3)` three ticks set the owner's event bit; after
`set_timer(t, 0)` a tick changes nothing. -/
theorem C7_tick_timer (k : Kernel) (t : Nat) (ht : t < k.timers.length)
    (how : (getTimer k t).taskID < k.tasks.length) :
    ((getTimer k t).value = 0 → Os_TickTimer t k = k) ∧
    (0 < (getTimer k t).value →
      (getTimer (Os_TickTimer t k) t).value = (getTimer k t).value - 1 ∧
      ((getTimer k t).value = 1 →
        (getTask (Os_TickTimer t k) (getTimer k t).taskID).events
          = (getTask k (getTimer k t).taskID).events ||| (getTimer k t).event) ∧
      (1 < (getTimer k t).value →
        (Os_TickTimer t k).tasks = k.tasks ∧
        (Os_TickTimer t k).forceSchedule = k.forceSchedule)) ∧
    Os_TickTimer t (Os_SetTimer t 0 k) = Os_SetTimer t 0 k ∧
    (getTask (Os_TickTimer t (Os_TickTimer t (Os_TickTimer t (Os_SetTimer t 3 k))))
        (getTimer k t).taskID).events &&& (getTimer k t).event
      = (getTimer k t).event := by
  refine ⟨TickTimer_zero k t, ?_, ?_, ?_⟩
  · intro hpos
    refine ⟨TickTimer_dec_value k t ht hpos, TickTimer_expire_events k t ht how, ?_⟩
    intro hgt
    exact ⟨TickTimer_tasks_nonexpire k t ht (by omega),
      TickTimer_force_nonexpire k t ht (by omega)⟩
  · apply TickTimer_zero
    rw [SetTimer_getTimer_self k t 0 ht]
  · have hlen0 : t < (Os_SetTimer t 0 k).timers.length := by
      show t < (modifyNth (fun tm => { tm with value := 0 }) t k.timers).length
      rw [length_modifyNth]
      exact ht
    have hlen0' : t < (Os_SetTimer t 3 k).timers.length := by
      show t < (modifyNth (fun tm => { tm with value := 3 }) t k.timers).length
      rw [length_modifyNth]
      exact ht
    have hg0 : getTimer (Os_SetTimer t 3 k) t
        = ⟨3, (getTimer k t).taskID, (getTimer k t).event⟩ :=
      SetTimer_getTimer_self k t 3 ht
    have hg1 : getTimer (Os_TickTimer t (Os_SetTimer t 3 k)) t
        = ⟨2, (getTimer k t).taskID, (getTimer k t).event⟩ := by
      rw [TickTimer_getTimer_nonexpire (Os_SetTimer t 3 k) t hlen0'
        (by rw [hg0]; show (1 : Nat) < 3; decide)]
      rw [hg0]
      rfl
    have hlen1 : t < (Os_TickTimer t (Os_SetTimer t 3 k)).timers.length := by
      rw [TickTimer_timers_length]
      exact hlen0'
    have hg2 : getTimer (Os_TickTimer t (Os_TickTimer t (Os_SetTimer t 3 k))) t
        = ⟨1, (getTimer k t).taskID, (getTimer k t).event⟩ := by
      rw [TickTimer_getTimer_nonexpire (Os_TickTimer t (Os_SetTimer t 3 k)) t hlen1
        (by rw [hg1]; show (1 : Nat) < 2; decide)]
      rw [hg1]
      rfl
    have hlen2 : t < (Os_TickTimer t (Os_TickTimer t (Os_SetTimer t 3 k))).timers.length := by
      rw [TickTimer_timers_length]
      exact hlen1
    have htasks1 : (Os_TickTimer t (Os_SetTimer t 3 k)).tasks = k.tasks := by
      rw [TickTimer_tasks_nonexpire (Os_SetTimer t 3 k) t hlen0'
        (by rw [hg0]; show (3 : Nat) ≠ 1; decide)]
      rfl
    have htasks2 : (Os_TickTimer t (Os_TickTimer t (Os_SetTimer t 3 k))).tasks = k.tasks := by
      rw [TickTimer_tasks_nonexpire (Os_TickTimer t (Os_SetTimer t 3 k)) t hlen1
        (by rw [hg1]; show (2 : Nat) ≠ 1; decide)]
      exact htasks1
    have how2 : (getTimer (Os_TickTimer t (Os_TickTimer t (Os_SetTimer t 3 k))) t).taskID
        < (Os_TickTimer t (Os_TickTimer t (Os_SetTimer t 3 k))).tasks.length := by
      rw [hg2, htasks2]
      exact how
    have hexp := TickTimer_expire_events (Os_TickTimer t (Os_TickTimer t (Os_SetTimer t 3 k)))
      t hlen2 how2 (by rw [hg2])
    rw [hg2] at hexp
    dsimp only at hexp
    rw [hexp]
    exact lor_land_self _ _

/-- C7 witness: the statement evaluated on `kTwo` and timer 0 (owner task 1,
event bit 1). -/
theorem C7_tick_timer_witness :
    (0 < kTwo.timers.length ∧ (getTimer kTwo 0).taskID < kTwo.tasks.length) ∧
    Os_TickTimer 0 (Os_SetTimer 0 0 kTwo) = Os_SetTimer 0 0 kTwo :=
  ⟨⟨by decide, by decide⟩, (C7_tick_timer kTwo 0 (by decide) (by decide)).2.2.1⟩

/-- C2 as frozen is refuted on a reachable state: starting from the
all-READY two-task configuration, `wait_events(4); schedule;
wait_events(4)` leaves both tasks WAITING; the next `schedule` then
dispatches task 0 — a WAITING task — as the new current task. -/
theorem C2_counterexample :
    (getTask (run [Op.waitEvents 4, Op.schedule, Op.waitEvents 4] kTwo) 0).state
      = TaskState.waiting ∧
    (run [Op.waitEvents 4, Op.schedule, Op.waitEvents 4, Op.schedule] kTwo).currentTaskIndex
      = 0 ∧
    (getTask (run [Op.waitEvents 4, Op.schedule, Op.waitEvents 4, Op.schedule] kTwo) 0).state
      = TaskState.running := by
  refine ⟨?_, ?_, ?_⟩
  · decide
  · decide
  · decide

/-- C2 (amended): provided the fallback task at index 0 is not WAITING and
its required resources do not intersect the occupied bitmap, the index the
scheduler selects always denotes a task that is not WAITING and whose
required resources do not intersect `resources_occupied`. -/
theorem C2_selected_eligible (k : Kernel)
    (h0s : (getTask k 0).state ≠ TaskState.waiting)
    (h0r : (getTask k 0).requiredResources &&& k.resourcesOccupied = 0) :
    (getTask k (schedSelect k.tasks k.resourcesOccupied).2).state ≠ TaskState.waiting ∧
    (getTask k (schedSelect k.tasks k.resourcesOccupied).2).requiredResources
      &&& k.resourcesOccupied = 0 := by
  rcases schedSelect_snd_cases k.tasks k.resourcesOccupied with h | ⟨hc, -⟩
  · rw [h]
    exact ⟨h0s, h0r⟩
  · constructor
    · have h1 : (getTask k (schedSelect k.tasks k.resourcesOccupied).2).state
          = TaskState.ready := hc.1
      rw [h1]
      simp
    · exact hc.2

/-- C2 witness: the amended statement evaluated on `kW`. -/
theorem C2_selected_eligible_witness :
    ((getTask kW 0).state ≠ TaskState.waiting ∧
      (getTask kW 0).requiredResources &&& kW.resourcesOccupied = 0) ∧
    (getTask kW (schedSelect kW.tasks kW.resourcesOccupied).2).state
      ≠ TaskState.waiting :=
  ⟨⟨by decide, by decide⟩, (C2_selected_eligible kW (by decide) (by decide)).1⟩

/-- C9 as frozen is refuted twice over.  In `kTie`, tasks 1 and 2 are
Ready-and-eligible with the same priority 1, yet the scheduler picks task
3 (priority 5), not the lowest index of the tied pair — so the rule can
only concern ties at the maximal candidate priority.  And in `kTieZero`,
tasks 1 and 2 are Ready-and-eligible and tied at priority 0, which IS the
maximal candidate priority, yet the strict `Priority > HighestPriority`
test against the initial 0 records nothing and the scheduler falls back to
index 0, which is not even a candidate — so the rule also needs the tied
priority to be positive. -/
theorem C9_counterexample :
    (IsCand kTie.tasks kTie.resourcesOccupied 1 ∧
      IsCand kTie.tasks kTie.resourcesOccupied 2 ∧
      (kTie.tasks.getD 1 dfltTask).priority = (kTie.tasks.getD 2 dfltTask).priority ∧
      (schedSelect kTie.tasks kTie.resourcesOccupied).2 = 3) ∧
    (IsCand kTieZero.tasks kTieZero.resourcesOccupied 1 ∧
      IsCand kTieZero.tasks kTieZero.resourcesOccupied 2 ∧
      (kTieZero.tasks.getD 1 dfltTask).priority
        = (kTieZero.tasks.getD 2 dfltTask).priority ∧
      (∀ l, l < kTieZero.tasks.length → IsCand kTieZero.tasks kTieZero.resourcesOccupied l →
        (kTieZero.tasks.getD l dfltTask).priority
          ≤ (kTieZero.tasks.getD 1 dfltTask).priority) ∧
      (schedSelect kTieZero.tasks kTieZero.resourcesOccupied).2 = 0 ∧
      ¬ IsCand kTieZero.tasks kTieZero.resourcesOccupied 0) := by
  refine ⟨⟨?_, ?_, ?_, ?_⟩, ⟨?_, ?_, ?_, ?_, ?_, ?_⟩⟩
  · decide
  · decide
  · decide
  · decide
  · decide
  · decide
  · decide
  · decide
  · decide
  · decide

/-- C9 (amended): when two Ready-and-eligible tasks are tied at the
maximal candidate priority and that priority is positive, the scheduler's
choice is a tied candidate and is the lowest-index one. -/
theorem C9_tie_lowest_index (k : Kernel) (i j p : Nat)
    (hij : i ≠ j)
    (hi : i < k.tasks.length) (hci : IsCand k.tasks k.resourcesOccupied i)
    (hj : j < k.tasks.length) (hcj : IsCand k.tasks k.resourcesOccupied j)
    (hpi : (k.tasks.getD i dfltTask).priority = p)
    (hpj : (k.tasks.getD j dfltTask).priority = p)
    (hpos : 0 < p)
    (hmax : ∀ l, l < k.tasks.length → IsCand k.tasks k.resourcesOccupied l →
      (k.tasks.getD l dfltTask).priority ≤ p) :
    IsCand k.tasks k.resourcesOccupied (schedSelect k.tasks k.resourcesOccupied).2 ∧
    (k.tasks.getD (schedSelect k.tasks k.resourcesOccupied).2 dfltTask).priority = p ∧
    (∀ l, l < k.tasks.length → IsCand k.tasks k.resourcesOccupied l →
      (k.tasks.getD l dfltTask).priority = p →
      (schedSelect k.tasks k.resourcesOccupied).2 ≤ l) := by
  have hinv := schedSelect_inv k.tasks k.resourcesOccupied
  rcases Nat.eq_zero_or_pos (schedSelect k.tasks k.resourcesOccupied).1 with h0 | hpacc
  · have := (hinv.1 h0).2 i hi hci
    omega
  · obtain ⟨hlt, hcand, hprio, hbound, hleast⟩ := hinv.2 hpacc
    have hle : p ≤ (schedSelect k.tasks k.resourcesOccupied).1 := by
      have := hbound i hi hci
      omega
    have hge : (schedSelect k.tasks k.resourcesOccupied).1 ≤ p := by
      have := hmax _ hlt hcand
      omega
    have heq : (schedSelect k.tasks k.resourcesOccupied).1 = p := Nat.le_antisymm hge hle
    refine ⟨hcand, by rw [hprio, heq], ?_⟩
    intro l hl hcl hpl
    exact hleast l hl hcl (by rw [hpl, heq])

/-- C9 witness: the amended statement evaluated on `kTieTop` (tasks 1 and 2
tied at top priority 2): the selected index is a tied candidate with
priority 2. -/
theorem C9_tie_lowest_index_witness :
    (1 ≠ 2 ∧ 1 < kTieTop.tasks.length ∧
      IsCand kTieTop.tasks kTieTop.resourcesOccupied 1 ∧
      2 < kTieTop.tasks.length ∧ IsCand kTieTop.tasks kTieTop.resourcesOccupied 2 ∧
      (kTieTop.tasks.getD 1 dfltTask).priority = 2 ∧
      (kTieTop.tasks.getD 2 dfltTask).priority = 2 ∧ 0 < 2) ∧
    (kTieTop.tasks.getD (schedSelect kTieTop.tasks kTieTop.resourcesOccupied).2
      dfltTask).priority = 2 :=
  ⟨⟨by decide, by decide, by decide, by decide, by decide, by decide, by decide, by decide⟩,
    (C9_tie_lowest_index kTieTop 1 2 2 (by decide) (by decide) (by decide) (by decide)
      (by decide) (by decide) (by decide) (by decide) (by decide)).2.1⟩

/-- C10: over every sequence of kernel operations no bit of a task's wait
mask is ever cleared (the old mask is a bit-subset of the new one), and a
`set_event` delivering a bit of the accumulated wait mask makes the target
READY even when it is not WAITING. -/
theorem C10_wait_mask_monotone (ops : List Op) (k : Kernel) (i t m : Nat)
    (ht : t < k.tasks.length) :
    (getTask k i).waitForEvents &&& (getTask (run ops k) i).waitForEvents
      = (getTask k i).waitForEvents ∧
    ((getTask k t).waitForEvents &&& m ≠ 0 →
      (getTask (Os_SetEvent t m k) t).state = TaskState.ready) := by
  constructor
  · exact waitMask_monotone_run ops k i
  · intro hnz
    have hcross : (getTask k t).waitForEvents &&& ((getTask k t).events ||| m) ≠ 0 :=
      land_lor_absorb _ _ _ hnz
    exact (SetEvent_getTask_self k t m ht).2.2.2.2.1 hcross

/-- C10 witness: after a task waits, a later `set_event` with the same bit
makes it READY; evaluated on `kWaited` (task 1 has wait mask 1, state
RUNNING). -/
theorem C10_wait_mask_monotone_witness :
    (1 < kWaited.tasks.length ∧ (getTask kWaited 1).waitForEvents &&& 1 ≠ 0) ∧
    (getTask (Os_SetEvent 1 1 kWaited) 1).state = TaskState.ready :=
  ⟨⟨by decide, by decide⟩,
    (C10_wait_mask_monotone [] kWaited 0 1 1 (by decide)).2 (by decide)⟩

/-- C3: starting from the initial configuration (all tasks READY, no
events pending, no resource held), after any sequence of kernel operations
at most one task descriptor is in state RUNNING. -/
theorem C3_single_running (ops : List Op) (k : Kernel) (hinit : InitialConfig k) :
    AtMostOneRunning (run ops k) := by
  have h0 : RunningIsCurrent k := by
    intro i hi hrun
    have hmem := getD_mem k.tasks i dfltTask hi
    have hready := (hinit.1 _ hmem).1
    rw [getTask] at hrun
    rw [hready] at hrun
    exact absurd hrun (by simp)
  have hrc := runningIsCurrent_run ops k h0
  intro i hi j hj hri hrj
  rw [hrc i hi hri, hrc j hj hrj]

/-- C3 witness: the invariant evaluated on `kW` after a concrete sequence
of operations. -/
theorem C3_single_running_witness :
    InitialConfig kW ∧
    AtMostOneRunning
      (run [Op.schedule, Op.setEvent 2 1, Op.waitEvents 1, Op.schedule, Op.tickTimer 0] kW) :=
  ⟨by decide,
    C3_single_running [Op.schedule, Op.setEvent 2 1, Op.waitEvents 1, Op.schedule,
      Op.tickTimer 0] kW (by decide)⟩

theorem SetEvent_transition (k : Kernel) (t m i : Nat) (hi : i < k.tasks.length) :
    ((getTask k i).state = TaskState.waiting →
      (getTask (Os_SetEvent t m k) i).state = TaskState.running → False) ∧
    ((getTask k i).state = TaskState.running →
      (getTask (Os_SetEvent t m k) i).state = TaskState.ready →
      (getTask (Os_SetEvent t m k) i).waitForEvents
        &&& (getTask (Os_SetEvent t m k) i).events ≠ 0) := by
  by_cases hit : i = t
  · rw [hit] at hi ⊢
    obtain ⟨hev, hwait, -, -, hwake, hsame⟩ := SetEvent_getTask_self k t m hi
    by_cases hc : (getTask k t).waitForEvents &&& ((getTask k t).events ||| m) ≠ 0
    · constructor
      · intro _ hrun
        rw [hwake hc] at hrun
        exact absurd hrun (by simp)
      · intro _ _
        rw [hwait, hev]
        exact hc
    · push_neg at hc
      constructor
      · intro hw hrun
        rw [hsame hc, hw] at hrun
        exact absurd hrun (by simp)
      · intro hr hready
        rw [hsame hc, hr] at hready
        exact absurd hready (by simp)
  · constructor
    · intro hw hrun
      rw [SetEvent_getTask_ne k t m i hit, hw] at hrun
      exact absurd hrun (by simp)
    · intro hr hready
      rw [SetEvent_getTask_ne k t m i hit, hr] at hready
      exact absurd hready (by simp)

/-- C8 as frozen is refuted on a reachable state: after `schedule;
set_event(1, 1); wait_events(1)` on the all-READY two-task configuration,
task 1 is RUNNING with wait-mask bit 1 already satisfied; the next
`set_event(1, 1)` — not a scheduler run — moves it RUNNING → READY. -/
theorem C8_counterexample :
    (getTask (run [Op.schedule, Op.setEvent 1 1, Op.waitEvents 1] kTwo) 1).state
      = TaskState.running ∧
    (getTask (applyOp (Op.setEvent 1 1)
        (run [Op.schedule, Op.setEvent 1 1, Op.waitEvents 1] kTwo)) 1).state
      = TaskState.ready := by
  constructor
  · decide
  · decide

/-- C8 (amended): in one kernel operation, a direct WAITING → RUNNING
transition can happen only to the fallback task at index 0 and only
through the scheduler; a RUNNING → READY transition happens only when the
scheduler preempts the current task for a strictly higher-priority
selected task, or when an event delivery (set_event, possibly raised by a
timer expiry) leaves the task's wait mask intersecting its events. -/
theorem C8_transitions (op : Op) (k : Kernel) (i : Nat) (hi : i < k.tasks.length) :
    ((getTask k i).state = TaskState.waiting →
      (getTask (applyOp op k) i).state = TaskState.running →
      op = Op.schedule ∧ i = 0) ∧
    ((getTask k i).state = TaskState.running →
      (getTask (applyOp op k) i).state = TaskState.ready →
      (op = Op.schedule ∧ i = k.currentTaskIndex ∧
        (getTask k i).priority
          < (getTask k (schedSelect k.tasks k.resourcesOccupied).2).priority) ∨
      (getTask (applyOp op k) i).waitForEvents
        &&& (getTask (applyOp op k) i).events ≠ 0) := by
  cases op with
  | schedule =>
    rw [show applyOp Op.schedule k = Os_Scheduler k from rfl]
    cases hst : (getTask k k.currentTaskIndex).state with
    | ready =>
      rw [Scheduler_branch_moved k (Or.inl hst)]
      constructor
      · intro hw hrun
        by_cases hin : i = (schedSelect k.tasks k.resourcesOccupied).2
        · refine ⟨rfl, ?_⟩
          rcases schedSelect_snd_cases k.tasks k.resourcesOccupied with h0 | ⟨hc, -⟩
          · rw [hin, h0]
          · have hr : (getTask k i).state = TaskState.ready := by
              rw [hin]
              exact hc.1
            rw [hw] at hr
            exact absurd hr (by simp)
        · have hsame : getTask { k with
              tasks := modifyNth (fun t => { t with state := TaskState.running })
                (schedSelect k.tasks k.resourcesOccupied).2 k.tasks
              currentTaskIndex := (schedSelect k.tasks k.resourcesOccupied).2 } i
              = getTask k i := by
            unfold getTask
            dsimp only
            rw [getD_modifyNth_ne _ _ i _ _ hin]
          rw [hsame, hw] at hrun
          exact absurd hrun (by simp)
      · intro hr hready
        by_cases hin : i = (schedSelect k.tasks k.resourcesOccupied).2
        · have hlt : (schedSelect k.tasks k.resourcesOccupied).2 < k.tasks.length := by
            rw [← hin]
            exact hi
          have hrun : (getTask { k with
              tasks := modifyNth (fun t => { t with state := TaskState.running })
                (schedSelect k.tasks k.resourcesOccupied).2 k.tasks
              currentTaskIndex := (schedSelect k.tasks k.resourcesOccupied).2 } i).state
              = TaskState.running := by
            unfold getTask
            dsimp only
            rw [hin, getD_modifyNth_self _ _ _ dfltTask hlt]
          rw [hrun] at hready
          exact absurd hready (by simp)
        · have hsame : getTask { k with
              tasks := modifyNth (fun t => { t with state := TaskState.running })
                (schedSelect k.tasks k.resourcesOccupied).2 k.tasks
              currentTaskIndex := (schedSelect k.tasks k.resourcesOccupied).2 } i
              = getTask k i := by
            unfold getTask
            dsimp only
            rw [getD_modifyNth_ne _ _ i _ _ hin]
          rw [hsame, hr] at hready
          exact absurd hready (by simp)
    | waiting =>
      rw [Scheduler_branch_moved k (Or.inr hst)]
      constructor
      · intro hw hrun
        by_cases hin : i = (schedSelect k.tasks k.resourcesOccupied).2
        · refine ⟨rfl, ?_⟩
          rcases schedSelect_snd_cases k.tasks k.resourcesOccupied with h0 | ⟨hc, -⟩
          · rw [hin, h0]
          · have hr : (getTask k i).state = TaskState.ready := by
              rw [hin]
              exact hc.1
            rw [hw] at hr
            exact absurd hr (by simp)
        · have hsame : getTask { k with
              tasks := modifyNth (fun t => { t with state := TaskState.running })
                (schedSelect k.tasks k.resourcesOccupied).2 k.tasks
              currentTaskIndex := (schedSelect k.tasks k.resourcesOccupied).2 } i
              = getTask k i := by
            unfold getTask
            dsimp only
            rw [getD_modifyNth_ne _ _ i _ _ hin]
          rw [hsame, hw] at hrun
          exact absurd hrun (by simp)
      · intro hr hready
        by_cases hin : i = (schedSelect k.tasks k.resourcesOccupied).2
        · have hlt : (schedSelect k.tasks k.resourcesOccupied).2 < k.tasks.length := by
            rw [← hin]
            exact hi
          have hrun : (getTask { k with
              tasks := modifyNth (fun t => { t with state := TaskState.running })
                (schedSelect k.tasks k.resourcesOccupied).2 k.tasks
              currentTaskIndex := (schedSelect k.tasks k.resourcesOccupied).2 } i).state
              = TaskState.running := by
            unfold getTask
            dsimp only
            rw [hin, getD_modifyNth_self _ _ _ dfltTask hlt]
          rw [hrun] at hready
          exact absurd hready (by simp)
        · have hsame : getTask { k with
              tasks := modifyNth (fun t => { t with state := TaskState.running })
                (schedSelect k.tasks k.resourcesOccupied).2 k.tasks
              currentTaskIndex := (schedSelect k.tasks k.resourcesOccupied).2 } i
              = getTask k i := by
            unfold getTask
            dsimp only
            rw [getD_modifyNth_ne _ _ i _ _ hin]
          rw [hsame, hr] at hready
          exact absurd hready (by simp)
    | running =>
      by_cases hp : (getTask k k.currentTaskIndex).priority
          < (getTask k (schedSelect k.tasks k.resourcesOccupied).2).priority
      · rw [Scheduler_branch_preempt k hst hp]
        constructor
        · intro hw hrun
          by_cases hin : i = (schedSelect k.tasks k.resourcesOccupied).2
          · refine ⟨rfl, ?_⟩
            rcases schedSelect_snd_cases k.tasks k.resourcesOccupied with h0 | ⟨hc, -⟩
            · rw [hin, h0]
            · have hr : (getTask k i).state = TaskState.ready := by
                rw [hin]
                exact hc.1
              rw [hw] at hr
              exact absurd hr (by simp)
          · by_cases hic : i = k.currentTaskIndex
            · rw [hic, hst] at hw
              exact absurd hw (by simp)
            · have hsame : getTask { k with
                  tasks := modifyNth (fun t => { t with state := TaskState.running })
                    (schedSelect k.tasks k.resourcesOccupied).2
                    (modifyNth (fun t => { t with state := TaskState.ready })
                      k.currentTaskIndex k.tasks)
                  currentTaskIndex := (schedSelect k.tasks k.resourcesOccupied).2 } i
                  = getTask k i := by
                unfold getTask
                dsimp only
                rw [getD_modifyNth_ne _ _ i _ _ hin, getD_modifyNth_ne _ _ i _ _ hic]
              rw [hsame, hw] at hrun
              exact absurd hrun (by simp)
        · intro hr hready
          by_cases hin : i = (schedSelect k.tasks k.resourcesOccupied).2
          · have hlt : (schedSelect k.tasks k.resourcesOccupied).2 <
                (modifyNth (fun t => { t with state := TaskState.ready })
                  k.currentTaskIndex k.tasks).length := by
              rw [length_modifyNth, ← hin]
              exact hi
            have hrun : (getTask { k with
                tasks := modifyNth (fun t => { t with state := TaskState.running })
                  (schedSelect k.tasks k.resourcesOccupied).2
                  (modifyNth (fun t => { t with state := TaskState.ready })
                    k.currentTaskIndex k.tasks)
                currentTaskIndex := (schedSelect k.tasks k.resourcesOccupied).2 } i).state
                = TaskState.running := by
              unfold getTask
              dsimp only
              rw [hin, getD_modifyNth_self _ _ _ dfltTask hlt]
            rw [hrun] at hready
            exact absurd hready (by simp)
          · by_cases hic : i = k.currentTaskIndex
            · left
              refine ⟨rfl, hic, ?_⟩
              rw [hic]
              exact hp
            · have hsame : getTask { k with
                  tasks := modifyNth (fun t => { t with state := TaskState.running })
                    (schedSelect k.tasks k.resourcesOccupied).2
                    (modifyNth (fun t => { t with state := TaskState.ready })
                      k.currentTaskIndex k.tasks)
                  currentTaskIndex := (schedSelect k.tasks k.resourcesOccupied).2 } i
                  = getTask k i := by
                unfold getTask
                dsimp only
                rw [getD_modifyNth_ne _ _ i _ _ hin, getD_modifyNth_ne _ _ i _ _ hic]
              rw [hsame, hr] at hready
              exact absurd hready (by simp)
      · rw [Scheduler_branch_keep k hst hp]
        constructor
        · intro hw hrun
          rw [hw] at hrun
          exact absurd hrun (by simp)
        · intro hr hready
          rw [hr] at hready
          exact absurd hready (by simp)
  | setEvent t m =>
    rw [show applyOp (Op.setEvent t m) k = Os_SetEvent t m k from rfl]
    obtain ⟨h1, h2⟩ := SetEvent_transition k t m i hi
    exact ⟨fun hw hr => (h1 hw hr).elim, fun hr hrd => Or.inr (h2 hr hrd)⟩
  | clearEvents m =>
    rw [show applyOp (Op.clearEvents m) k = Os_ClearEvents m k from rfl]
    have hstate := ((ClearEvents_spec k m).2.2.2.2.2.2.1 i).1
    constructor
    · intro hw hrun
      rw [hstate, hw] at hrun
      exact absurd hrun (by simp)
    · intro hr hready
      rw [hstate, hr] at hready
      exact absurd hready (by simp)
  | getEvents =>
    rw [show applyOp Op.getEvents k = k from rfl]
    constructor
    · intro hw hrun
      rw [hw] at hrun
      exact absurd hrun (by simp)
    · intro hr hready
      rw [hr] at hready
      exact absurd hready (by simp)
  | waitEvents m =>
    rw [show applyOp (Op.waitEvents m) k = Os_WaitEvents m k from rfl]
    constructor
    · intro hw hrun
      by_cases hic : i = k.currentTaskIndex
      · rw [hic] at hw hrun
        by_cases hlen : k.currentTaskIndex < k.tasks.length
        · obtain ⟨-, -, -, -, hwait, himm⟩ := WaitEvents_getTask_self k m hlen
          by_cases hz : (getTask k k.currentTaskIndex).events &&& m = 0
          · rw [(hwait hz).1] at hrun
            exact absurd hrun (by simp)
          · rw [(himm hz).1, hw] at hrun
            exact absurd hrun (by simp)
        · rw [WaitEvents_out_of_range k m (Nat.le_of_not_lt hlen)] at hrun
          rw [getTask_congr k { k with forceSchedule := true } k.currentTaskIndex rfl] at hrun
          rw [hw] at hrun
          exact absurd hrun (by simp)
      · rw [WaitEvents_getTask_ne k m i hic, hw] at hrun
        exact absurd hrun (by simp)
    · intro hr hready
      by_cases hic : i = k.currentTaskIndex
      · rw [hic] at hr hready
        by_cases hlen : k.currentTaskIndex < k.tasks.length
        · obtain ⟨-, -, -, -, hwait, himm⟩ := WaitEvents_getTask_self k m hlen
          by_cases hz : (getTask k k.currentTaskIndex).events &&& m = 0
          · rw [(hwait hz).1] at hready
            exact absurd hready (by simp)
          · rw [(himm hz).1, hr] at hready
            exact absurd hready (by simp)
        · rw [WaitEvents_out_of_range k m (Nat.le_of_not_lt hlen)] at hready
          rw [getTask_congr k { k with forceSchedule := true } k.currentTaskIndex rfl] at hready
          rw [hr] at hready
          exact absurd hready (by simp)
      · rw [WaitEvents_getTask_ne k m i hic, hr] at hready
        exact absurd hready (by simp)
  | getResources m =>
    rw [show applyOp (Op.getResources m) k = Os_GetResources m k from rfl]
    constructor
    · intro hw hrun
      rw [getTask_congr k (Os_GetResources m k) i rfl, hw] at hrun
      exact absurd hrun (by simp)
    · intro hr hready
      rw [getTask_congr k (Os_GetResources m k) i rfl, hr] at hready
      exact absurd hready (by simp)
  | releaseResources m =>
    rw [show applyOp (Op.releaseResources m) k = Os_ReleaseResources m k from rfl]
    constructor
    · intro hw hrun
      rw [getTask_congr k (Os_ReleaseResources m k) i rfl, hw] at hrun
      exact absurd hrun (by simp)
    · intro hr hready
      rw [getTask_congr k (Os_ReleaseResources m k) i rfl, hr] at hready
      exact absurd hready (by simp)
  | setTimer t v =>
    rw [show applyOp (Op.setTimer t v) k = Os_SetTimer t v k from rfl]
    constructor
    · intro hw hrun
      rw [getTask_congr k (Os_SetTimer t v k) i rfl, hw] at hrun
      exact absurd hrun (by simp)
    · intro hr hready
      rw [getTask_congr k (Os_SetTimer t v k) i rfl, hr] at hready
      exact absurd hready (by simp)
  | tickTimer tid =>
    rw [show applyOp (Op.tickTimer tid) k = Os_TickTimer tid k from rfl]
    rcases TickTimer_cases k tid with heq | ⟨k1, ht1, -, -, -, heq | heq⟩
    · rw [heq]
      constructor
      · intro hw hrun
        rw [hw] at hrun
        exact absurd hrun (by simp)
      · intro hr hready
        rw [hr] at hready
        exact absurd hready (by simp)
    · rw [heq]
      constructor
      · intro hw hrun
        rw [getTask_congr k k1 i ht1, hw] at hrun
        exact absurd hrun (by simp)
      · intro hr hready
        rw [getTask_congr k k1 i ht1, hr] at hready
        exact absurd hready (by simp)
    · rw [heq]
      have hi1 : i < k1.tasks.length := by
        rw [ht1]
        exact hi
      obtain ⟨h1, h2⟩ := SetEvent_transition k1 (getTimer k tid).taskID (getTimer k tid).event
        i hi1
      constructor
      · intro hw hrun
        exact (h1 (by rw [getTask_congr k k1 i ht1]; exact hw) hrun).elim
      · intro hr hready
        exact Or.inr (h2 (by rw [getTask_congr k k1 i ht1]; exact hr) hready)

/-- C8 witness: the amended statement evaluated at `clear_events(0)` on
`kW`, task 1 (a no-transition case). -/
theorem C8_transitions_witness :
    1 < kW.tasks.length ∧
    (((getTask kW 1).state = TaskState.waiting →
      (getTask (applyOp (Op.clearEvents 0) kW) 1).state = TaskState.running →
      Op.clearEvents 0 = Op.schedule ∧ 1 = 0) ∧
    ((getTask kW 1).state = TaskState.running →
      (getTask (applyOp (Op.clearEvents 0) kW) 1).state = TaskState.ready →
      (Op.clearEvents 0 = Op.schedule ∧ 1 = kW.currentTaskIndex ∧
        (getTask kW 1).priority
          < (getTask kW (schedSelect kW.tasks kW.resourcesOccupied).2).priority) ∨
      (getTask (applyOp (Op.clearEvents 0) kW) 1).waitForEvents
        &&& (getTask (applyOp (Op.clearEvents 0) kW) 1).events ≠ 0)) :=
  ⟨by decide, C8_transitions (Op.clearEvents 0) kW 1 (by decide)⟩

/-- C1: under the configuration conventions (non-empty table, idle task at
index 0 with priority 0, pairwise-unique priorities), the scheduler
selects, among READY tasks whose required resources are free, the one with
the strictly highest priority, falling back to the idle task when no
candidate exists; if the current task is READY or WAITING the selected
task is dispatched (made RUNNING, `current_task` updated) with every other
descriptor untouched; if the current task is RUNNING it is preempted
exactly when the selected task's priority strictly exceeds its own, and
otherwise the state is entirely unchanged. -/
theorem C1_scheduler (k : Kernel)
    (hne : 0 < k.tasks.length)
    (hprio0 : (getTask k 0).priority = 0)
    (huniq : ∀ i, i < k.tasks.length → ∀ j, j < k.tasks.length → i ≠ j →
      (getTask k i).priority ≠ (getTask k j).priority) :
    ((∃ i, i < k.tasks.length ∧ IsCand k.tasks k.resourcesOccupied i) →
      IsCand k.tasks k.resourcesOccupied (schedSelect k.tasks k.resourcesOccupied).2 ∧
      (∀ j, j < k.tasks.length → IsCand k.tasks k.resourcesOccupied j →
        j ≠ (schedSelect k.tasks k.resourcesOccupied).2 →
        (getTask k j).priority
          < (getTask k (schedSelect k.tasks k.resourcesOccupied).2).priority)) ∧
    ((∀ i, i < k.tasks.length → ¬ IsCand k.tasks k.resourcesOccupied i) →
      (schedSelect k.tasks k.resourcesOccupied).2 = 0) ∧
    ((getTask k k.currentTaskIndex).state = TaskState.ready ∨
        (getTask k k.currentTaskIndex).state = TaskState.waiting →
      (getTask (Os_Scheduler k) (schedSelect k.tasks k.resourcesOccupied).2).state
        = TaskState.running ∧
      (Os_Scheduler k).currentTaskIndex = (schedSelect k.tasks k.resourcesOccupied).2 ∧
      (∀ j, j ≠ (schedSelect k.tasks k.resourcesOccupied).2 →
        getTask (Os_Scheduler k) j = getTask k j) ∧
      (Os_Scheduler k).resourcesOccupied = k.resourcesOccupied ∧
      (Os_Scheduler k).timers = k.timers ∧
      (Os_Scheduler k).forceSchedule = k.forceSchedule) ∧
    ((getTask k k.currentTaskIndex).state = TaskState.running →
      ((getTask k k.currentTaskIndex).priority
          < (getTask k (schedSelect k.tasks k.resourcesOccupied).2).priority →
        (getTask (Os_Scheduler k) (schedSelect k.tasks k.resourcesOccupied).2).state
          = TaskState.running ∧
        (k.currentTaskIndex ≠ (schedSelect k.tasks k.resourcesOccupied).2 →
          (getTask (Os_Scheduler k) k.currentTaskIndex).state = TaskState.ready) ∧
        (Os_Scheduler k).currentTaskIndex = (schedSelect k.tasks k.resourcesOccupied).2 ∧
        (∀ j, j ≠ (schedSelect k.tasks k.resourcesOccupied).2 →
          j ≠ k.currentTaskIndex → getTask (Os_Scheduler k) j = getTask k j) ∧
        (Os_Scheduler k).resourcesOccupied = k.resourcesOccupied ∧
        (Os_Scheduler k).timers = k.timers ∧
        (Os_Scheduler k).forceSchedule = k.forceSchedule) ∧
      (¬ (getTask k k.currentTaskIndex).priority
          < (getTask k (schedSelect k.tasks k.resourcesOccupied).2).priority →
        Os_Scheduler k = k)) := by
  have hsel := schedSelect_inv k.tasks k.resourcesOccupied
  have hnext_lt : (schedSelect k.tasks k.resourcesOccupied).2 < k.tasks.length := by
    rcases schedSelect_snd_cases k.tasks k.resourcesOccupied with h | ⟨-, hlen⟩
    · rw [h]
      exact hne
    · exact hlen
  refine ⟨?_, ?_, ?_, ?_⟩
  · rintro ⟨i, hi, hci⟩
    rcases Nat.eq_zero_or_pos (schedSelect k.tasks k.resourcesOccupied).1 with h0 | hpos
    · have hall := (hsel.1 h0).2
      have hnext0 : (schedSelect k.tasks k.resourcesOccupied).2 = 0 := by
        rw [(hsel.1 h0).1]
      have hi0 : i = 0 := by
        by_contra hne0
        have hp : (getTask k i).priority = 0 := hall i hi hci
        exact (huniq i hi 0 hne hne0) (by rw [hp, hprio0])
      constructor
      · rw [hnext0, ← hi0]
        exact hci
      · intro j hj hcj hjne
        rw [hnext0] at hjne
        have hpj : (getTask k j).priority = 0 := hall j hj hcj
        exact absurd (by rw [hpj, hprio0] :
          (getTask k j).priority = (getTask k 0).priority) (huniq j hj 0 hne hjne)
    · obtain ⟨hlt, hcand, hprio, hbound, -⟩ := hsel.2 hpos
      refine ⟨hcand, ?_⟩
      intro j hj hcj hjne
      have h1 : (getTask k j).priority ≤ (schedSelect k.tasks k.resourcesOccupied).1 :=
        hbound j hj hcj
      have h2 : (getTask k j).priority
          ≠ (getTask k (schedSelect k.tasks k.resourcesOccupied).2).priority :=
        huniq j hj _ hlt hjne
      have h3 : (getTask k (schedSelect k.tasks k.resourcesOccupied).2).priority
          = (schedSelect k.tasks k.resourcesOccupied).1 := hprio
      omega
  · intro hnone
    rcases schedSelect_snd_cases k.tasks k.resourcesOccupied with h | ⟨hc, hlen⟩
    · exact h
    · exact absurd hc (hnone _ hlen)
  · intro hmov
    rw [Scheduler_branch_moved k hmov]
    refine ⟨?_, rfl, ?_, rfl, rfl, rfl⟩
    · unfold getTask
      dsimp only
      rw [getD_modifyNth_self _ _ _ dfltTask hnext_lt]
    · intro j hjne
      unfold getTask
      dsimp only
      rw [getD_modifyNth_ne _ _ j _ _ hjne]
  · intro hrun
    constructor
    · intro hp
      rw [Scheduler_branch_preempt k hrun hp]
      have hcur_lt : k.currentTaskIndex < k.tasks.length := by
        by_contra hc
        have : getTask k k.currentTaskIndex = dfltTask := by
          unfold getTask
          exact List.getD_eq_default _ _ (Nat.le_of_not_lt hc)
        rw [this] at hrun
        exact absurd hrun (by simp [dfltTask])
      have hlt2 : (schedSelect k.tasks k.resourcesOccupied).2 <
          (modifyNth (fun t => { t with state := TaskState.ready })
            k.currentTaskIndex k.tasks).length := by
        rw [length_modifyNth]
        exact hnext_lt
      refine ⟨?_, ?_, rfl, ?_, rfl, rfl, rfl⟩
      · unfold getTask
        dsimp only
        rw [getD_modifyNth_self _ _ _ dfltTask hlt2]
      · intro hcne
        unfold getTask
        dsimp only
        rw [getD_modifyNth_ne _ _ _ _ _ hcne,
          getD_modifyNth_self _ _ _ dfltTask hcur_lt]
      · intro j hjn hjc
        unfold getTask
        dsimp only
        rw [getD_modifyNth_ne _ _ j _ _ hjn, getD_modifyNth_ne _ _ j _ _ hjc]
    · intro hp
      exact Scheduler_branch_keep k hrun hp

/-- C1 witness: the dispatch conjunct evaluated on `kW` (current task 0 is
READY, so the selected task is dispatched). -/
theorem C1_scheduler_witness :
    (0 < kW.tasks.length ∧ (getTask kW 0).priority = 0 ∧
      (∀ i, i < kW.tasks.length → ∀ j, j < kW.tasks.length → i ≠ j →
        (getTask kW i).priority ≠ (getTask kW j).priority) ∧
      (getTask kW kW.currentTaskIndex).state = TaskState.ready) ∧
    (Os_Scheduler kW).currentTaskIndex = (schedSelect kW.tasks kW.resourcesOccupied).2 :=
  ⟨⟨by decide, by decide, by decide, by decide⟩,
    ((C1_scheduler kW (by decide) (by decide) (by decide)).2.2.1
      (Or.inl (by decide))).2.1⟩

end Tort
